import Mathlib

/-
Verification development for the DynaFlow flow-classification packet
processor (src/src/hybrid_accelerated.c and collaborators).

Shallow embedding conventions:
* C unsigned machine integers become naturals; wherever the C code can
  overflow, the embedding reduces with an explicit mod (uint32 additions
  and multiplies reduce mod 2^32, the uint16 hit counter mod 2^16, ...).
* C doubles become rationals.  The sigmoid output of the predictor
  (enhanced_ml_predict) involves exp and is not rational; every operation
  that consumes a prediction takes it as an explicit rational parameter,
  and theorems that need it carry the hypothesis 0 <= p <= 1 (the range
  of the sigmoid).  Wall-clock reads (time(NULL)) are likewise passed in.
* The conversion of an out-of-range double to a C unsigned type is
  undefined behaviour in ISO C; the embedding models the de-facto x86
  behaviour (truncate toward zero, then wrap), see truncRat / castU16.
* Pointer-linked hash chains become lists of arena indices; the arena
  (flow_pool) becomes a list of flow entries, indices stable.
-/

namespace DynaFlow

/-! ## Configuration constants (hybrid_accelerated.c lines 14-32) -/

def LARGE_FLOW_AREA_SIZE : ℕ := 50000
def BURSTY_FLOW_AREA_SIZE : ℕ := 500
def MICRO_FLOW_AREA_SIZE : ℕ := 1000
def HASH_TABLE_SIZE : ℕ := 65536
def CACHE_SIZE : ℕ := 8192
def BURST_THRESHOLD : ℕ := 100
def CONFIDENCE_FAST_TRACK : ℕ := 60
def CONFIDENCE_ULTRA_FAST : ℕ := 85
def AGING_INTERVAL : ℕ := 25000
def SKETCH_WIDTH : ℕ := 4096
def SKETCH_DEPTH : ℕ := 3
def ML_HISTORY_SIZE : ℕ := 8
def ML_ADAPTATION_INTERVAL : ℕ := 50000
def PREDICTION_CACHE_SIZE : ℕ := 1024
def BURST_WINDOW_SIZE : ℕ := 100

def U32_MOD : ℕ := 2 ^ 32
def U16_MOD : ℕ := 2 ^ 16
def UINT32_MAX : ℕ := 2 ^ 32 - 1

/-! ## Rational-to-integer conversions

C casts a double to an unsigned integer by truncating toward zero; if the
truncated value is out of range of the target type the conversion is
undefined in ISO C.  On the common x86-64 targets the result is the wrap
of the truncation, which is what castU16 models. -/

/-- Truncation of a rational toward zero, as C float-to-int conversion. -/
def truncRat (x : ℚ) : ℤ := if 0 ≤ x then ⌊x⌋ else -⌊-x⌋

/-- The de-facto result of casting a double to uint16_t: truncate toward
zero, then wrap mod 2^16 (out-of-range conversions are UB in ISO C). -/
def castU16 (x : ℚ) : ℕ := (truncRat x % (65536 : ℤ)).toNat

/-- The result of casting a nonnegative double to int, as used for the
ml boost computation (value is always in range there). -/
def castInt (x : ℚ) : ℤ := truncRat x

/-! ## Fast hash (hybrid_accelerated.c lines 198-205)

    static inline uint32_t fast_hash(uint32_t key) {
      key ^= key >> 16; key *= 0x85ebca6b; key ^= key >> 13;
      key *= 0xc2b2ae35; key ^= key >> 16; return key; }
-/

def fast_hash (key : ℕ) : ℕ :=
  let k0 := key % U32_MOD
  let k1 := k0 ^^^ (k0 >>> 16)
  let k2 := (k1 * 0x85ebca6b) % U32_MOD
  let k3 := k2 ^^^ (k2 >>> 13)
  let k4 := (k3 * 0xc2b2ae35) % U32_MOD
  k4 ^^^ (k4 >>> 16)

/-! ## Count-Min sketch (hybrid_accelerated.c lines 135-138, 252-277)

The sketch holds a SKETCH_DEPTH x SKETCH_WIDTH matrix of uint32 counters;
the embedding is a curried function row -> column -> value, all live
cells kept below 2^32 by the update. -/

def Sketch : Type := ℕ → ℕ → ℕ

/-- Row seeds fixed by init_fast_sketch (lines 253-259). -/
def sketch_seed : ℕ → ℕ
  | 0 => 0x9e3779b9
  | 1 => 0x85ebca6b
  | _ => 0xc2b2ae35

/-- Column of key ip in row i:  fast_hash(ip ^ seeds[i]) & (SKETCH_WIDTH-1). -/
def sketch_pos (i ip : ℕ) : ℕ := fast_hash (ip ^^^ sketch_seed i) % SKETCH_WIDTH

/-- The all-zero sketch produced by calloc in init_fast_sketch. -/
def sketch0 : Sketch := fun _ _ => 0

/-- sketch_update_fast (lines 261-266): for each row i < 3, increment the
cell at sketch_pos i ip.  The uint32 increment wraps mod 2^32. -/
def sketch_update_fast (s : Sketch) (ip : ℕ) : Sketch :=
  fun i j => if i < SKETCH_DEPTH ∧ j = sketch_pos i ip then (s i j + 1) % U32_MOD else s i j

/-- sketch_query_fast (lines 268-277): minimum of the three row cells,
starting the running minimum from UINT32_MAX as the C loop does. -/
def sketch_query_fast (s : Sketch) (ip : ℕ) : ℕ :=
  List.foldl (fun m i => min m (s i (sketch_pos i ip))) UINT32_MAX
    (List.range SKETCH_DEPTH)

/-- Folding a list of updates through the sketch, oldest first. -/
def sketch_run (s : Sketch) (ips : List ℕ) : Sketch := ips.foldl sketch_update_fast s

/-- The sketch holding UINT32_MAX in every cell, used to exhibit the
wraparound of the counter increment. -/
def sketch_full : Sketch := fun _ _ => UINT32_MAX

section SketchLemmas

lemma U32_MOD_pos : 0 < U32_MOD := by norm_num [U32_MOD]

/-- After a run of updates, a cell of a row holds its initial value plus
the number of updates whose key hashed to that cell, reduced mod 2^32. -/
lemma sketch_run_cell (ips : List ℕ) (s : Sketch) (i c : ℕ)
    (hi : i < SKETCH_DEPTH) (hc : s i c < U32_MOD) :
    sketch_run s ips i c
      = (s i c + ips.countP (fun x => sketch_pos i x == c)) % U32_MOD := by
  induction ips generalizing s with
  | nil => simpa [sketch_run] using (Nat.mod_eq_of_lt hc).symm
  | cons a l ih =>
    have hstep : sketch_run s (a :: l) = sketch_run (sketch_update_fast s a) l := rfl
    rw [hstep, List.countP_cons]
    by_cases hpos : c = sketch_pos i a
    · have hval : sketch_update_fast s a i c = (s i c + 1) % U32_MOD := by
        simp [sketch_update_fast, hi, hpos]
      have hlt : sketch_update_fast s a i c < U32_MOD := by
        rw [hval]; exact Nat.mod_lt _ U32_MOD_pos
      rw [ih (sketch_update_fast s a) hlt, hval]
      rw [if_pos (by simp [hpos])]
      rw [Nat.mod_add_mod]
      congr 1
      omega
    · have hval : sketch_update_fast s a i c = s i c := by
        simp only [sketch_update_fast]
        rw [if_neg]
        rintro ⟨-, h⟩; exact hpos h
      have hlt : sketch_update_fast s a i c < U32_MOD := by rw [hval]; exact hc
      rw [ih (sketch_update_fast s a) hlt, hval]
      rw [if_neg (by simp [beq_iff_eq]; intro h; exact hpos h.symm)]
      simp

/-- Occurrences of k itself always hash to k's cell in every row. -/
lemma count_le_countP_pos (ips : List ℕ) (k i : ℕ) :
    ips.count k ≤ ips.countP (fun x => sketch_pos i x == sketch_pos i k) := by
  rw [List.count_eq_countP]
  exact List.countP_mono_left (fun x _ hx => by
    have : x = k := by simpa [beq_iff_eq] using hx
    simp [this])

/-- The query is the minimum of UINT32_MAX and the three row cells. -/
lemma sketch_query_eq_min (s : Sketch) (ip : ℕ) :
    sketch_query_fast s ip
      = min (min (min UINT32_MAX (s 0 (sketch_pos 0 ip))) (s 1 (sketch_pos 1 ip)))
          (s 2 (sketch_pos 2 ip)) := by
  have h3 : List.range SKETCH_DEPTH = [0, 1, 2] := rfl
  simp [sketch_query_fast, h3]

/-- Running n identical updates from the empty sketch leaves n mod 2^32
in each of the key's cells. -/
lemma sketch_run_replicate_cell (n k i : ℕ) (hi : i < SKETCH_DEPTH) :
    sketch_run sketch0 (List.replicate n k) i (sketch_pos i k) = n % U32_MOD := by
  rw [sketch_run_cell _ _ _ _ hi (by simp [sketch0, U32_MOD])]
  have hcount : (List.replicate n k).countP (fun x => sketch_pos i x == sketch_pos i k) = n := by
    induction n with
    | zero => simp
    | succ m ihm => simp [List.replicate_succ, List.countP_cons, ihm]
  rw [hcount]
  simp [sketch0]

end SketchLemmas

/-! ## Claims C5 and C8 -/

/-- C5 counterexample: the claim says sketch.query(k) is at least the
number of updates performed with key k for EVERY sequence of updates, but
the uint32 counters wrap: after 2^32 updates of key 0 the query returns 0,
strictly below the true count 2^32. -/
theorem sketch_query_undercounts_after_wrap :
    sketch_query_fast (sketch_run sketch0 (List.replicate U32_MOD 0)) 0
      < (List.replicate U32_MOD 0).count 0 := by
  have h0 := sketch_run_replicate_cell U32_MOD 0 0 (by norm_num [SKETCH_DEPTH])
  have h1 := sketch_run_replicate_cell U32_MOD 0 1 (by norm_num [SKETCH_DEPTH])
  have h2 := sketch_run_replicate_cell U32_MOD 0 2 (by norm_num [SKETCH_DEPTH])
  rw [sketch_query_eq_min, h0, h1, h2, List.count_replicate_self]
  simp [U32_MOD, UINT32_MAX]

/-- C5 (amended): as long as fewer than 2^32 updates have been performed
(so no uint32 counter can wrap), sketch.query(k) is at least the number of
updates performed with key k, and is exactly that number when no other
updated key collides with k's cell in any of the three rows. -/
theorem sketch_query_lower_bound_exact (ips : List ℕ) (k : ℕ)
    (hlen : ips.length < U32_MOD) :
    ips.count k ≤ sketch_query_fast (sketch_run sketch0 ips) k ∧
    ((∀ x ∈ ips, x ≠ k → ∀ i, i < SKETCH_DEPTH → sketch_pos i x ≠ sketch_pos i k) →
      sketch_query_fast (sketch_run sketch0 ips) k = ips.count k) := by
  have hcell : ∀ i, i < SKETCH_DEPTH →
      sketch_run sketch0 ips i (sketch_pos i k)
        = ips.countP (fun x => sketch_pos i x == sketch_pos i k) := by
    intro i hi
    rw [sketch_run_cell _ _ _ _ hi (by simp [sketch0, U32_MOD])]
    have hle : ips.countP (fun x => sketch_pos i x == sketch_pos i k) < U32_MOD :=
      lt_of_le_of_lt (List.countP_le_length _) hlen
    simp [sketch0, Nat.mod_eq_of_lt hle]
  have hcount_lt : ips.count k < U32_MOD :=
    lt_of_le_of_lt (List.count_le_length k ips) hlen
  have hcount_max : ips.count k ≤ UINT32_MAX := by
    have : ips.count k ≤ U32_MOD - 1 := Nat.le_sub_one_of_lt hcount_lt
    simpa [UINT32_MAX, U32_MOD] using this
  have h0 := hcell 0 (by norm_num [SKETCH_DEPTH])
  have h1 := hcell 1 (by norm_num [SKETCH_DEPTH])
  have h2 := hcell 2 (by norm_num [SKETCH_DEPTH])
  constructor
  · rw [sketch_query_eq_min, h0, h1, h2]
    exact le_min (le_min (le_min hcount_max (count_le_countP_pos ips k 0))
      (count_le_countP_pos ips k 1)) (count_le_countP_pos ips k 2)
  · intro hnocoll
    have hexact : ∀ i, i < SKETCH_DEPTH →
        ips.countP (fun x => sketch_pos i x == sketch_pos i k) = ips.count k := by
      intro i hi
      rw [List.count_eq_countP]
      refine List.countP_congr (fun x hx => ?_)
      simp only [beq_iff_eq]
      constructor
      · intro hpx
        by_contra hne
        exact hnocoll x hx hne i hi hpx
      · intro hxk; simp [hxk]
    rw [sketch_query_eq_min, h0, h1, h2,
      hexact 0 (by norm_num [SKETCH_DEPTH]), hexact 1 (by norm_num [SKETCH_DEPTH]),
      hexact 2 (by norm_num [SKETCH_DEPTH])]
    simp [min_eq_right, hcount_max]

/-- Witness for sketch_query_lower_bound_exact: for the concrete update
sequence [5, 9, 5] and key 5 (keys 5 and 9 collide in no row) the query
equals the true count 2. -/
theorem sketch_query_lower_bound_exact_witness :
    sketch_query_fast (sketch_run sketch0 [5, 9, 5]) 5 = 2 := by
  have h := (sketch_query_lower_bound_exact [5, 9, 5] 5 (by norm_num [U32_MOD])).2
    (by decide)
  simpa using h

/-- C8 counterexample: the claim says a cell already holding UINT32_MAX is
left at UINT32_MAX by an update, but the uint32 increment wraps: the cell
becomes 0. -/
theorem sketch_counter_wraps_not_saturates :
    (sketch_update_fast sketch_full 0) 0 (sketch_pos 0 0) ≠ UINT32_MAX := by
  have hval : (sketch_update_fast sketch_full 0) 0 (sketch_pos 0 0) = 0 := by
    simp [sketch_update_fast, sketch_full, SKETCH_DEPTH, UINT32_MAX, U32_MOD]
  rw [hval]
  norm_num [UINT32_MAX, U32_MOD]

/-- C8 (amended): sketch counter arithmetic wraps mod 2^32 rather than
saturating: a cell holding UINT32_MAX becomes 0 when updated. -/
theorem sketch_update_wraps_at_max (s : Sketch) (ip i : ℕ)
    (hi : i < SKETCH_DEPTH) (hmax : s i (sketch_pos i ip) = UINT32_MAX) :
    (sketch_update_fast s ip) i (sketch_pos i ip) = 0 := by
  simp [sketch_update_fast, hi, hmax, UINT32_MAX, U32_MOD]

/-- Witness for sketch_update_wraps_at_max at the all-max sketch, key 0,
row 0. -/
theorem sketch_update_wraps_at_max_witness :
    (sketch_update_fast sketch_full 0) 0 (sketch_pos 0 0) = 0 :=
  sketch_update_wraps_at_max sketch_full 0 0 (by norm_num [SKETCH_DEPTH])
    (by simp [sketch_full])

/-! ## Enumerations (hybrid_accelerated.c lines 35-61) -/

/-- Processing paths; the C enum fixes the numeric codes
FAST=0, ACCELERATED=1, ULTRA_FAST=2, SLOW=3, ADAPTIVE=4, DEEP_ANALYSIS=5. -/
inductive ProcessingPath
  | FAST_PATH
  | ACCELERATED_PATH
  | ULTRA_FAST_PATH
  | SLOW_PATH
  | ADAPTIVE_PATH
  | DEEP_ANALYSIS_PATH
deriving DecidableEq, Repr

/-- Numeric value of each path in the C enum; C comparisons such as
path <= FAST_PATH compare these codes. -/
def pathCode : ProcessingPath → ℕ
  | .FAST_PATH => 0
  | .ACCELERATED_PATH => 1
  | .ULTRA_FAST_PATH => 2
  | .SLOW_PATH => 3
  | .ADAPTIVE_PATH => 4
  | .DEEP_ANALYSIS_PATH => 5

inductive FlowType
  | NORMAL_FLOW
  | LARGE_FLOW
  | BURSTY_FLOW
  | MICRO_FLOW
  | DYING_FLOW
  | PROMOTED_FLOW
  | SUSPECTED_FLOW
deriving DecidableEq, Repr

/-- Numeric value of each flow type in the C enum. -/
def flowTypeCode : FlowType → ℕ
  | .NORMAL_FLOW => 0
  | .LARGE_FLOW => 1
  | .BURSTY_FLOW => 2
  | .MICRO_FLOW => 3
  | .DYING_FLOW => 4
  | .PROMOTED_FLOW => 5
  | .SUSPECTED_FLOW => 6

inductive AgingStrategy
  | AGING_LINEAR
  | AGING_EXPONENTIAL
  | AGING_ADAPTIVE
  | AGING_AGGRESSIVE
deriving DecidableEq, Repr

/-! ## Flow entries (hybrid_accelerated.c lines 86-126) -/

/-- FlowPattern (lines 86-96): ring of the last ML_HISTORY_SIZE path
codes plus derived scalars.  path_history stores the uint8 path codes. -/
structure FlowPattern where
  path_history : ℕ → ℕ
  history_index : ℕ
  history_filled : Bool
  path_consistency : ℚ
  burst_score : ℚ
  consecutive_fast_paths : ℕ
  recent_promotions : ℕ

/-- AgingInfo (lines 99-106). -/
structure AgingInfo where
  creation_time : ℕ
  last_access_time : ℕ
  idle_periods : ℕ
  total_accesses : ℕ
  aging_strategy : AgingStrategy
  aging_multiplier : ℚ

/-- FlowEntry (lines 109-126); the intrusive next pointer is replaced by
index lists held in the hash-table embedding.  confidence, hits and
promotion_score are uint16, packet_count and cache_hits uint32. -/
structure FlowEntry where
  ip : ℕ
  confidence : ℕ
  hits : ℕ
  packet_count : ℕ
  last_seen : ℕ
  flow_type : FlowType
  previous_type : FlowType
  pattern : FlowPattern
  aging : AgingInfo
  cache_hits : ℕ
  promotion_score : ℕ

/-- The entry produced by create_flow_fast (lines 622-642): memset to
zero, then the listed field initialisations. -/
def new_flow_entry (ip now : ℕ) : FlowEntry where
  ip := ip
  confidence := 35
  hits := 1
  packet_count := 1
  last_seen := now
  flow_type := .NORMAL_FLOW
  previous_type := .NORMAL_FLOW
  pattern :=
    { path_history := fun _ => 0
      history_index := 0
      history_filled := false
      path_consistency := 1
      burst_score := 0
      consecutive_fast_paths := 0
      recent_promotions := 0 }
  aging :=
    { creation_time := now
      last_access_time := now
      idle_periods := 0
      total_accesses := 0
      aging_strategy := .AGING_EXPONENTIAL
      aging_multiplier := 1 }
  cache_hits := 0
  promotion_score := 100

/-- The elevated initial state given to pre-populated known flows in main
(lines 1182-1197), applied on top of a fresh create_flow_fast entry. -/
def prepopulate_flow (f : FlowEntry) : FlowEntry :=
  { f with
    confidence := 75
    hits := 12
    packet_count := 15
    flow_type := .LARGE_FLOW
    aging := { f.aging with aging_strategy := .AGING_ADAPTIVE }
    promotion_score := 800
    pattern := { f.pattern with
      path_consistency := 85 / 100
      burst_score := 15 / 100
      consecutive_fast_paths := 5 } }

/-! ## Pattern recorder (update_flow_pattern, lines 363-416)

The g_table->pattern_updates++ counter side effect is accounted for by
the dispatcher-state embedding at each call site. -/

def update_flow_pattern (f : FlowEntry) (path : ProcessingPath) : FlowEntry :=
  let p := f.pattern
  let hist1 : ℕ → ℕ := fun j => if j = p.history_index then pathCode path else p.path_history j
  let idx1 := (p.history_index + 1) % ML_HISTORY_SIZE
  let filled1 := p.history_filled || (idx1 == 0)
  let consistency1 :=
    if filled1 = true ∨ 4 ≤ idx1 then
      let size := if filled1 = true then ML_HISTORY_SIZE else idx1
      let max_count := (List.range size).foldl
        (fun mc i => max mc
          (1 + ((List.range size).drop (i + 1)).countP (fun j => hist1 j == hist1 i))) 0
      (max_count : ℚ) / (size : ℚ)
    else p.path_consistency
  let consec1 :=
    if pathCode path ≤ pathCode ProcessingPath.FAST_PATH
    then (p.consecutive_fast_paths + 1) % U32_MOD else 0
  let burst1 :=
    if filled1 = true then
      let transitions := ((List.range ML_HISTORY_SIZE).drop 1).countP
        (fun i => !(hist1 i == hist1 (i - 1)))
      (transitions : ℚ) / ((ML_HISTORY_SIZE : ℚ) - 1)
    else p.burst_score
  { f with pattern :=
    { path_history := hist1
      history_index := idx1
      history_filled := filled1
      path_consistency := consistency1
      burst_score := burst1
      consecutive_fast_paths := consec1
      recent_promotions := p.recent_promotions } }

/-! ## Aging strategies (apply_aging_strategy, lines 454-491)

idle is the wall-clock idle time now - last_seen the C code computes, ml
the enhanced_ml_predict output consumed by the Adaptive branch. -/

def apply_aging_strategy (idle ml : ℚ) (f : FlowEntry) : AgingStrategy → FlowEntry
  | .AGING_LINEAR =>
    if idle > 180 then
      { f with confidence := if 3 < f.confidence then f.confidence - 3 else 0 }
    else f
  | .AGING_EXPONENTIAL =>
    if idle > 60 then
      let decay0 : ℚ := 1 - idle / 600
      let decay := if decay0 < 1 / 10 then 1 / 10 else decay0
      { f with confidence := castU16 ((f.confidence : ℚ) * decay) }
    else f
  | .AGING_ADAPTIVE =>
    let protection := ml * (8 / 10)
    let decay := (idle / 1200) * (1 - protection)
    { f with confidence := castU16 ((f.confidence : ℚ) * (1 - decay)) }
  | .AGING_AGGRESSIVE =>
    if idle > 90 then
      let c1 := if 8 < f.confidence then f.confidence - 8 else 0
      { f with confidence := c1
               flow_type := if c1 < 15 then FlowType.DYING_FLOW else f.flow_type }
    else f

/-- Per-flow body of the enhanced_aging_cycle scan (lines 557-566): age
active flows, then demote to Dying when confidence fell below 10.  The
returned flag is the flows_demoted counter increment. -/
def aging_cycle_flow_step (idle ml : ℚ) (f : FlowEntry) : FlowEntry × Bool :=
  if f.ip ≠ 0 then
    let f1 := apply_aging_strategy idle ml f f.aging.aging_strategy
    if f1.confidence < 10 ∧ f1.flow_type ≠ .DYING_FLOW then
      ({ f1 with previous_type := f1.flow_type, flow_type := .DYING_FLOW }, true)
    else (f1, false)
  else (f, false)

/-! ## Burst promotion (maybe_promote_burst, lines 685-709)

burst is the detect_burst_enhanced() result (wall-clock driven, abstracted
as an oracle), ml the enhanced_ml_predict output.  The returned flag is
the simultaneous flows_promoted / ultra_fast_promotions increment. -/

def maybe_promote_burst (burst : Bool) (ml : ℚ) (f : FlowEntry) : FlowEntry × Bool :=
  if burst then
    if ml > 3 / 4 ∧ 3 ≤ f.pattern.consecutive_fast_paths then
      if f.confidence < CONFIDENCE_ULTRA_FAST then
        ({ f with
            confidence := CONFIDENCE_ULTRA_FAST
            previous_type := f.flow_type
            flow_type := .PROMOTED_FLOW
            pattern := { f.pattern with
              recent_promotions := (f.pattern.recent_promotions + 1) % U32_MOD } }, true)
      else (f, false)
    else if ml > 11 / 20 ∧ 2 ≤ f.pattern.consecutive_fast_paths then
      if f.confidence < CONFIDENCE_FAST_TRACK then
        ({ f with confidence := CONFIDENCE_FAST_TRACK, flow_type := .BURSTY_FLOW }, false)
      else (f, false)
    else (f, false)
  else (f, false)

/-! ## Path selection (select_path_enhanced, lines 712-760)

The pure decision: cached is the check_prediction_cache result (none for
the -1.0 miss), ml the enhanced_ml_predict output, sketch_count the
sketch_query_fast value consulted when no flow record exists. -/

def cache_mapped_path (p : ℚ) : ProcessingPath :=
  if p > 4 / 5 then .ULTRA_FAST_PATH
  else if p > 3 / 5 then .FAST_PATH
  else if p > 2 / 5 then .ACCELERATED_PATH
  else .ADAPTIVE_PATH

/-- The ML-driven selection for established flows (lines 743-752). -/
def select_path_main_rule (ml : ℚ) (f : FlowEntry) : ProcessingPath :=
  if CONFIDENCE_ULTRA_FAST ≤ f.confidence ∧ ml > 7 / 10 then .ULTRA_FAST_PATH
  else if CONFIDENCE_FAST_TRACK ≤ f.confidence ∧ ml > 1 / 2 then .FAST_PATH
  else if ml > 3 / 5 ∨ 3 ≤ f.pattern.consecutive_fast_paths then .ADAPTIVE_PATH
  else .ACCELERATED_PATH

def select_path_decision (cached : Option ℚ) (ml : ℚ) (sketch_count : ℕ) :
    Option FlowEntry → ProcessingPath
  | none => if 8 < sketch_count then .ACCELERATED_PATH else .SLOW_PATH
  | some f =>
    match (if 2 < f.hits then cached else none) with
    | some p => cache_mapped_path p
    | none => if f.hits = 1 then .ACCELERATED_PATH else select_path_main_rule ml f

/-! ## Post-dispatch flow update (update_stats section, lines 836-888)

now is the wall clock, ml the enhanced_ml_predict output used by the
confidence boost, path the executed path.  The returned flag records
whether the smart confidence update fired (confidence_updates++ and one
ml call). -/

/-- Lines 836-841: bump hits, packet_count, last_seen and the aging
access bookkeeping.  hits is uint16 and wraps mod 2^16; packet_count and
total_accesses are uint32. -/
def flow_touch (now : ℕ) (f : FlowEntry) : FlowEntry :=
  { f with
    hits := (f.hits + 1) % U16_MOD
    packet_count := (f.packet_count + 1) % U32_MOD
    last_seen := now
    aging := { f.aging with
      last_access_time := now
      total_accesses := (f.aging.total_accesses + 1) % U32_MOD } }

/-- Lines 843-854: smart confidence update on every 4th hit. -/
def flow_conf_boost (ml : ℚ) (f : FlowEntry) : FlowEntry :=
  if f.hits % 4 = 0 ∧ f.confidence < 100 then
    let total_boost : ℤ := 4 + castInt (ml * 6)
    { f with confidence :=
        if 100 < (f.confidence : ℤ) + total_boost then 100
        else (((f.confidence : ℤ) + total_boost) % 65536).toNat }
  else f

/-- Lines 856-870: enhanced flow type classification. -/
def flow_reclassify (f : FlowEntry) : FlowEntry :=
  if 800 < f.packet_count ∧ f.flow_type ≠ .LARGE_FLOW then
    { f with previous_type := f.flow_type, flow_type := .LARGE_FLOW,
             aging := { f.aging with aging_strategy := .AGING_ADAPTIVE } }
  else if f.pattern.burst_score > 3 / 5 ∧ 10 < f.hits then
    if f.flow_type ≠ .BURSTY_FLOW ∧ f.flow_type ≠ .PROMOTED_FLOW then
      { f with previous_type := f.flow_type, flow_type := .BURSTY_FLOW,
               aging := { f.aging with aging_strategy := .AGING_LINEAR } }
    else f
  else if f.packet_count < 10 ∧ f.hits < 5 then
    { f with flow_type := .MICRO_FLOW,
             aging := { f.aging with aging_strategy := .AGING_AGGRESSIVE } }
  else f

/-- Lines 872-878: simplified anomaly detection. -/
def flow_anomaly (f : FlowEntry) : FlowEntry :=
  if f.pattern.history_filled = true ∧ f.pattern.path_consistency < 3 / 10 then
    if f.flow_type ≠ .SUSPECTED_FLOW ∧ 8 < f.hits then
      { f with previous_type := f.flow_type, flow_type := .SUSPECTED_FLOW }
    else f
  else f

/-- Lines 880-887: promotion score updates keyed on the path class. -/
def flow_promo_update (path : ProcessingPath) (f : FlowEntry) : FlowEntry :=
  if pathCode path ≤ pathCode .FAST_PATH then
    { f with promotion_score :=
        if f.promotion_score < 950 then f.promotion_score + 10 else 1000 }
  else if pathCode .SLOW_PATH ≤ pathCode path then
    { f with promotion_score :=
        if 50 < f.promotion_score then f.promotion_score - 5 else 0 }
  else f

def post_update_flow (now : ℕ) (ml : ℚ) (path : ProcessingPath) (f : FlowEntry) :
    FlowEntry × Bool :=
  let f1 := flow_touch now f
  (flow_promo_update path (flow_anomaly (flow_reclassify (flow_conf_boost ml f1))),
    decide (f1.hits % 4 = 0 ∧ f1.confidence < 100))

/-! ## Flow lifecycle pass (manage_flow_lifecycle, lines 903-942)

Per-flow body for an active flow: promote, then demote, then retire, in
the order the C loop performs them.  now is the wall clock read once at
the top of the pass, ml the enhanced_ml_predict output for this flow.
The flags are the promoted_count / demoted_count increments. -/

/-- Lines 916-923: promote promising Normal flows. -/
def lifecycle_promote (ml : ℚ) (f : FlowEntry) : FlowEntry × Bool :=
  if f.flow_type = .NORMAL_FLOW ∧ ml > 3 / 4 ∧ 700 < f.promotion_score ∧ 8 < f.hits then
    ({ f with previous_type := f.flow_type, flow_type := .PROMOTED_FLOW,
              confidence := CONFIDENCE_FAST_TRACK }, true)
  else (f, false)

/-- Lines 925-931: demote underperforming Promoted flows. -/
def lifecycle_demote (idle ml : ℚ) (f : FlowEntry) : FlowEntry × Bool :=
  if f.flow_type = .PROMOTED_FLOW ∧ (ml < 2 / 5 ∨ idle > 300 ∨ f.promotion_score < 200) then
    ({ f with flow_type := f.previous_type,
              confidence := if 15 < f.confidence then f.confidence - 15 else 10 }, true)
  else (f, false)

/-- Lines 933-937: age out long-idle dying flows. -/
def lifecycle_retire (idle : ℚ) (f : FlowEntry) : FlowEntry :=
  if f.flow_type = .DYING_FLOW ∧ idle > 900 then { f with confidence := 0 } else f

def lifecycle_flow_step (now : ℤ) (ml : ℚ) (f : FlowEntry) : FlowEntry × Bool × Bool :=
  let idle : ℚ := ((now - (f.last_seen : ℤ) : ℤ) : ℚ)
  let pr := lifecycle_promote ml f
  let dm := lifecycle_demote idle ml pr.1
  (lifecycle_retire idle dm.1, pr.2, dm.2)

/-! ## Concrete flow states used by counterexamples and witnesses -/

def flow_cex3 : FlowEntry :=
  { new_flow_entry 7 0 with pattern :=
    { (new_flow_entry 7 0).pattern with consecutive_fast_paths := 5 } }

def flow_w2 : FlowEntry :=
  { new_flow_entry 3 0 with confidence := 85, hits := 2 }

def flow_cex4 : FlowEntry :=
  { new_flow_entry 9 0 with
    confidence := 20
    flow_type := .PROMOTED_FLOW
    promotion_score := 500 }

def flow_cex4b : FlowEntry :=
  { new_flow_entry 9 0 with
    confidence := 5
    flow_type := .PROMOTED_FLOW
    promotion_score := 500 }

def flow_w4 : FlowEntry :=
  { new_flow_entry 11 0 with
    confidence := 80
    flow_type := .PROMOTED_FLOW
    promotion_score := 100 }

def flow_cex6 : FlowEntry := { new_flow_entry 13 0 with confidence := 50 }

/-! ## Claim C2 -/

/-- C2: for an established flow (hits ≥ 2) whose prediction-cache probe
found no valid entry, path selection follows the main rule exactly as the
claim states: confidence ≥ 85 and predict > 0.7 gives UltraFast; else
confidence ≥ 60 and predict > 0.5 gives Fast; else predict > 0.6 or
consecutive_fast_paths ≥ 3 gives Adaptive; else Accelerated. -/
theorem select_path_established (f : FlowEntry) (ml : ℚ) (sk : ℕ)
    (h2 : 2 ≤ f.hits) :
    select_path_decision none ml sk (some f)
      = if 85 ≤ f.confidence ∧ ml > 7 / 10 then .ULTRA_FAST_PATH
        else if 60 ≤ f.confidence ∧ ml > 1 / 2 then .FAST_PATH
        else if ml > 3 / 5 ∨ 3 ≤ f.pattern.consecutive_fast_paths then .ADAPTIVE_PATH
        else .ACCELERATED_PATH := by
  have hne : ¬(f.hits = 1) := by omega
  simp [select_path_decision, hne, select_path_main_rule, CONFIDENCE_ULTRA_FAST,
    CONFIDENCE_FAST_TRACK]

/-- Witness for select_path_established: a flow with hits 2, confidence 85
and prediction 1 is dispatched to the UltraFast path. -/
theorem select_path_established_witness :
    select_path_decision none 1 0 (some flow_w2) = .ULTRA_FAST_PATH := by
  rw [select_path_established flow_w2 1 0 (by decide)]
  norm_num [flow_w2, new_flow_entry]

/-! ## Claim C3 -/

/-- C3 counterexample: the claim says consecutive_fast_paths increments
when the decided path is UltraFast or Fast (the two cheapest in the spec's
cost order), but the C comparison path <= FAST_PATH is on enum codes and
ULTRA_FAST_PATH has code 2 > 0 = FAST_PATH, so an UltraFast decision on a
flow with counter 5 resets it to 0 instead of incrementing it. -/
theorem ultra_fast_resets_consecutive :
    (update_flow_pattern flow_cex3 .ULTRA_FAST_PATH).pattern.consecutive_fast_paths = 0 ∧
    flow_cex3.pattern.consecutive_fast_paths = 5 := by
  exact ⟨rfl, rfl⟩

/-- C3 (amended): consecutive_fast_paths increments (mod 2^32) exactly when
the decided path's enum code is at most FAST_PATH = 0 — that is, only for
Fast — and resets to 0 for every other path, including UltraFast (code 2). -/
theorem consecutive_fast_paths_update (f : FlowEntry) (path : ProcessingPath) :
    (update_flow_pattern f path).pattern.consecutive_fast_paths
      = if path = .FAST_PATH then (f.pattern.consecutive_fast_paths + 1) % U32_MOD
        else 0 := by
  cases path <;> rfl

/-! ## Claim C4 -/

/-- The flow state the demotion branch of manage_flow_lifecycle writes. -/
def demoted_flow (f : FlowEntry) : FlowEntry :=
  { f with
    flow_type := f.previous_type
    confidence := if 15 < f.confidence then f.confidence - 15 else 10 }

/-- Shared description of the lifecycle pass on a Promoted flow meeting a
demotion trigger whose previous type is not Dying. -/
lemma flow_step_demoted (now : ℤ) (ml : ℚ) (f : FlowEntry)
    (hp : f.flow_type = .PROMOTED_FLOW)
    (hc : ml < 2 / 5 ∨ ((now - (f.last_seen : ℤ) : ℤ) : ℚ) > 300 ∨ f.promotion_score < 200)
    (hprev : f.previous_type ≠ .DYING_FLOW) :
    (lifecycle_flow_step now ml f).1 = demoted_flow f ∧
    (lifecycle_flow_step now ml f).2.2 = true := by
  have hpr : lifecycle_promote ml f = (f, false) := by
    simp [lifecycle_promote, hp]
  have hdm : lifecycle_demote ((now - (f.last_seen : ℤ) : ℤ) : ℚ) ml f
      = (demoted_flow f, true) := by
    unfold lifecycle_demote demoted_flow
    rw [if_pos ⟨hp, hc⟩]
  have hrt : lifecycle_retire ((now - (f.last_seen : ℤ) : ℤ) : ℚ) (demoted_flow f)
      = demoted_flow f := by
    unfold lifecycle_retire
    rw [if_neg]
    rintro ⟨h, -⟩
    exact hprev h
  simp only [lifecycle_flow_step, hpr, hdm, hrt]
  simp

/-- C4 counterexample: demoting a Promoted flow with confidence 20 yields
confidence 5, below the floor of 10 the claim asserts (the code computes
20 - 15 and only substitutes 10 when old confidence ≤ 15); and demoting a
Promoted flow with confidence 5 yields 10, raising confidence, which the
claim also rules out. -/
theorem lifecycle_demotion_breaks_floor :
    ((lifecycle_flow_step 0 (3 / 10) flow_cex4).1).confidence = 5 ∧
    ((lifecycle_flow_step 0 (3 / 10) flow_cex4b).1).confidence = 10 ∧
    flow_cex4b.confidence < 10 := by
  obtain ⟨ha, -⟩ := flow_step_demoted 0 (3 / 10) flow_cex4 (by decide)
    (Or.inl (by norm_num)) (by decide)
  obtain ⟨hb, -⟩ := flow_step_demoted 0 (3 / 10) flow_cex4b (by decide)
    (Or.inl (by norm_num)) (by decide)
  rw [ha, hb]
  refine ⟨?_, ?_, by decide⟩
  · norm_num [demoted_flow, flow_cex4, new_flow_entry]
  · norm_num [demoted_flow, flow_cex4b, new_flow_entry]

/-- C4 (amended): a Promoted flow meeting a demotion trigger (predict <
0.4, idle > 300 s, or promotion_score < 200) reverts to previous_type and
its confidence becomes old - 15 if old > 15, else 10; so demotion can leave
confidence as low as 1 (old = 16) and can raise it to 10 (old < 10). -/
theorem lifecycle_demotion (now : ℤ) (ml : ℚ) (f : FlowEntry)
    (hp : f.flow_type = .PROMOTED_FLOW)
    (hc : ml < 2 / 5 ∨ ((now - (f.last_seen : ℤ) : ℤ) : ℚ) > 300 ∨ f.promotion_score < 200)
    (hprev : f.previous_type ≠ .DYING_FLOW) :
    ((lifecycle_flow_step now ml f).1).confidence
        = (if 15 < f.confidence then f.confidence - 15 else 10) ∧
    ((lifecycle_flow_step now ml f).1).flow_type = f.previous_type ∧
    (lifecycle_flow_step now ml f).2.2 = true := by
  obtain ⟨h1, h2⟩ := flow_step_demoted now ml f hp hc hprev
  rw [h1]
  exact ⟨rfl, rfl, h2⟩

/-- Witness for lifecycle_demotion: a Promoted flow with confidence 80 and
promotion_score 100 demotes to confidence 65 and reverts to Normal. -/
theorem lifecycle_demotion_witness :
    ((lifecycle_flow_step 0 (1 / 2) flow_w4).1).confidence = 65 ∧
    ((lifecycle_flow_step 0 (1 / 2) flow_w4).1).flow_type = .NORMAL_FLOW := by
  have h := lifecycle_demotion 0 (1 / 2) flow_w4 (by decide)
    (Or.inr (Or.inr (by decide))) (by decide)
  refine ⟨?_, ?_⟩
  · rw [h.1]; norm_num [flow_w4, new_flow_entry]
  · rw [h.2.1]; decide

/-! ## Field bookkeeping lemmas for the per-flow operations -/

section FieldLemmas

variable (now : ℕ) (ml idle : ℚ) (path : ProcessingPath) (f : FlowEntry)

lemma flow_touch_confidence : (flow_touch now f).confidence = f.confidence := rfl

lemma flow_touch_promotion : (flow_touch now f).promotion_score = f.promotion_score := rfl

lemma flow_touch_hits : (flow_touch now f).hits = (f.hits + 1) % U16_MOD := rfl

lemma flow_touch_pc : (flow_touch now f).packet_count = (f.packet_count + 1) % U32_MOD := rfl

lemma flow_conf_boost_hits : (flow_conf_boost ml f).hits = f.hits := by
  unfold flow_conf_boost; split_ifs <;> rfl

lemma flow_conf_boost_pc : (flow_conf_boost ml f).packet_count = f.packet_count := by
  unfold flow_conf_boost; split_ifs <;> rfl

lemma flow_conf_boost_promotion :
    (flow_conf_boost ml f).promotion_score = f.promotion_score := by
  unfold flow_conf_boost; split_ifs <;> rfl

lemma flow_reclassify_confidence : (flow_reclassify f).confidence = f.confidence := by
  unfold flow_reclassify; split_ifs <;> rfl

lemma flow_reclassify_hits : (flow_reclassify f).hits = f.hits := by
  unfold flow_reclassify; split_ifs <;> rfl

lemma flow_reclassify_pc : (flow_reclassify f).packet_count = f.packet_count := by
  unfold flow_reclassify; split_ifs <;> rfl

lemma flow_reclassify_promotion :
    (flow_reclassify f).promotion_score = f.promotion_score := by
  unfold flow_reclassify; split_ifs <;> rfl

lemma flow_anomaly_confidence : (flow_anomaly f).confidence = f.confidence := by
  unfold flow_anomaly; split_ifs <;> rfl

lemma flow_anomaly_hits : (flow_anomaly f).hits = f.hits := by
  unfold flow_anomaly; split_ifs <;> rfl

lemma flow_anomaly_pc : (flow_anomaly f).packet_count = f.packet_count := by
  unfold flow_anomaly; split_ifs <;> rfl

lemma flow_anomaly_promotion : (flow_anomaly f).promotion_score = f.promotion_score := by
  unfold flow_anomaly; split_ifs <;> rfl

lemma flow_promo_update_confidence :
    (flow_promo_update path f).confidence = f.confidence := by
  unfold flow_promo_update; split_ifs <;> rfl

lemma flow_promo_update_hits : (flow_promo_update path f).hits = f.hits := by
  unfold flow_promo_update; split_ifs <;> rfl

lemma flow_promo_update_pc : (flow_promo_update path f).packet_count = f.packet_count := by
  unfold flow_promo_update; split_ifs <;> rfl

lemma post_update_flow_hits :
    ((post_update_flow now ml path f).1).hits = (f.hits + 1) % U16_MOD := by
  show (flow_promo_update path (flow_anomaly (flow_reclassify
    (flow_conf_boost ml (flow_touch now f))))).hits = _
  rw [flow_promo_update_hits, flow_anomaly_hits, flow_reclassify_hits,
    flow_conf_boost_hits, flow_touch_hits]

lemma post_update_flow_pc :
    ((post_update_flow now ml path f).1).packet_count = (f.packet_count + 1) % U32_MOD := by
  show (flow_promo_update path (flow_anomaly (flow_reclassify
    (flow_conf_boost ml (flow_touch now f))))).packet_count = _
  rw [flow_promo_update_pc, flow_anomaly_pc, flow_reclassify_pc,
    flow_conf_boost_pc, flow_touch_pc]

lemma aging_hits (st : AgingStrategy) : (apply_aging_strategy idle ml f st).hits = f.hits := by
  cases st <;> (unfold apply_aging_strategy; split_ifs <;> rfl)

lemma aging_pc (st : AgingStrategy) :
    (apply_aging_strategy idle ml f st).packet_count = f.packet_count := by
  cases st <;> (unfold apply_aging_strategy; split_ifs <;> rfl)

lemma lifecycle_hits (nowz : ℤ) : ((lifecycle_flow_step nowz ml f).1).hits = f.hits := by
  show (lifecycle_retire _ (lifecycle_demote _ ml (lifecycle_promote ml f).1).1).hits = _
  unfold lifecycle_retire lifecycle_demote lifecycle_promote
  split_ifs <;> rfl

lemma lifecycle_pc (nowz : ℤ) :
    ((lifecycle_flow_step nowz ml f).1).packet_count = f.packet_count := by
  show (lifecycle_retire _ (lifecycle_demote _ ml (lifecycle_promote ml f).1).1).packet_count = _
  unfold lifecycle_retire lifecycle_demote lifecycle_promote
  split_ifs <;> rfl

lemma burst_hits (burst : Bool) : ((maybe_promote_burst burst ml f).1).hits = f.hits := by
  unfold maybe_promote_burst; split_ifs <;> rfl

lemma burst_pc (burst : Bool) :
    ((maybe_promote_burst burst ml f).1).packet_count = f.packet_count := by
  unfold maybe_promote_burst; split_ifs <;> rfl

lemma pattern_hits : (update_flow_pattern f path).hits = f.hits := rfl

lemma pattern_pc : (update_flow_pattern f path).packet_count = f.packet_count := rfl

end FieldLemmas

/-! ## Claim C7 -/

/-- The post-dispatch flow update at fixed oracle values, used to iterate
the per-packet hit accounting. -/
def post_touch (f : FlowEntry) : FlowEntry := (post_update_flow 0 (1 / 2) .SLOW_PATH f).1

lemma post_touch_hits_iterate (n : ℕ) (f : FlowEntry) (h : f.hits < U16_MOD) :
    (post_touch^[n] f).hits = (f.hits + n) % U16_MOD := by
  induction n generalizing f with
  | zero => simpa using (Nat.mod_eq_of_lt h).symm
  | succ m ih =>
    rw [Function.iterate_succ_apply]
    have h1 : (post_touch f).hits = (f.hits + 1) % U16_MOD :=
      post_update_flow_hits 0 (1 / 2) .SLOW_PATH f
    have h2 : (post_touch f).hits < U16_MOD := by
      rw [h1]; exact Nat.mod_lt _ (by norm_num [U16_MOD])
    rw [ih (post_touch f) h2, h1, Nat.mod_add_mod]
    congr 1
    omega

/-- C7 counterexample: hits is a uint16 counter.  Starting from a freshly
created flow (hits = 1), after 65534 further packets attributed to it hits
reads 65535, and the very next packet wraps it to 0 — a strict decrease,
so hits is not non-decreasing over every run. -/
theorem hits_wrap_decreases :
    (post_touch^[65534] (new_flow_entry 7 0)).hits = 65535 ∧
    (post_touch^[65535] (new_flow_entry 7 0)).hits = 0 := by
  have hproj : (new_flow_entry 7 0).hits = 1 := rfl
  have hlt : (new_flow_entry 7 0).hits < U16_MOD := by rw [hproj]; norm_num [U16_MOD]
  have h1 := post_touch_hits_iterate 65534 (new_flow_entry 7 0) hlt
  have h2 := post_touch_hits_iterate 65535 (new_flow_entry 7 0) hlt
  rw [hproj] at h1 h2
  rw [show (1 + 65534) % U16_MOD = 65535 by norm_num [U16_MOD]] at h1
  rw [show (1 + 65535) % U16_MOD = 0 by norm_num [U16_MOD]] at h2
  exact ⟨h1, h2⟩

/-- C7 (amended): each packet attributed to a flow sets hits to
(hits + 1) mod 2^16 and packet_count to (packet_count + 1) mod 2^32 — a
strict increase while the uint16 and uint32 counters do not wrap — and no
other operation (aging, the lifecycle pass, burst promotion, the pattern
recorder) changes either field; so both are non-decreasing exactly until
their counters overflow. -/
theorem hits_packet_count_monotone (f : FlowEntry) (now : ℕ) (ml idle : ℚ)
    (nowz : ℤ) (path : ProcessingPath) (burst : Bool)
    (hh : f.hits + 1 < U16_MOD) (hpc : f.packet_count + 1 < U32_MOD) :
    ((post_update_flow now ml path f).1).hits = f.hits + 1 ∧
    f.hits < ((post_update_flow now ml path f).1).hits ∧
    ((post_update_flow now ml path f).1).packet_count = f.packet_count + 1 ∧
    f.packet_count < ((post_update_flow now ml path f).1).packet_count ∧
    (apply_aging_strategy idle ml f f.aging.aging_strategy).hits = f.hits ∧
    (apply_aging_strategy idle ml f f.aging.aging_strategy).packet_count = f.packet_count ∧
    ((lifecycle_flow_step nowz ml f).1).hits = f.hits ∧
    ((lifecycle_flow_step nowz ml f).1).packet_count = f.packet_count ∧
    ((maybe_promote_burst burst ml f).1).hits = f.hits ∧
    ((maybe_promote_burst burst ml f).1).packet_count = f.packet_count ∧
    (update_flow_pattern f path).hits = f.hits ∧
    (update_flow_pattern f path).packet_count = f.packet_count := by
  have e1 := post_update_flow_hits now ml path f
  have e2 := post_update_flow_pc now ml path f
  rw [Nat.mod_eq_of_lt hh] at e1
  rw [Nat.mod_eq_of_lt hpc] at e2
  refine ⟨e1, by omega, e2, by omega, aging_hits ml idle f _, aging_pc ml idle f _,
    lifecycle_hits ml f nowz, lifecycle_pc ml f nowz, burst_hits ml f burst,
    burst_pc ml f burst, pattern_hits path f, pattern_pc path f⟩

/-- Witness for hits_packet_count_monotone: one packet on a fresh flow
takes hits from 1 to 2. -/
theorem hits_packet_count_monotone_witness :
    ((post_update_flow 0 (1 / 2) .SLOW_PATH (new_flow_entry 7 0)).1).hits = 2 := by
  have h := hits_packet_count_monotone (new_flow_entry 7 0) 0 (1 / 2) 0 0 .SLOW_PATH false
    (by norm_num [new_flow_entry, U16_MOD]) (by norm_num [new_flow_entry, U32_MOD])
  rw [h.1]
  norm_num [new_flow_entry]

/-! ## Claim C6 -/

/-- The invariant of the claim: confidence within 0..100, promotion score
within 0..1000 (both naturals, so the lower bounds are automatic). -/
abbrev FlowBounds (f : FlowEntry) : Prop :=
  f.confidence ≤ 100 ∧ f.promotion_score ≤ 1000

section BoundsLemmas

lemma castU16_le_100 (x : ℚ) (h0 : 0 ≤ x) (h : x ≤ 100) : castU16 x ≤ 100 := by
  unfold castU16 truncRat
  rw [if_pos h0]
  have h1 : (0 : ℤ) ≤ ⌊x⌋ := Int.floor_nonneg.mpr h0
  have h2 : ⌊x⌋ ≤ 100 := by
    calc ⌊x⌋ ≤ ⌊(100 : ℚ)⌋ := Int.floor_le_floor h
    _ = 100 := by norm_num
  rw [Int.emod_eq_of_lt h1 (by omega)]
  omega

lemma conf_decay_le_100 (c : ℕ) (hc : c ≤ 100) (d : ℚ) (h0 : 0 ≤ d) (h1 : d ≤ 1) :
    castU16 ((c : ℚ) * d) ≤ 100 := by
  apply castU16_le_100
  · exact mul_nonneg (by positivity) h0
  · calc (c : ℚ) * d ≤ 100 * 1 :=
      mul_le_mul (by exact_mod_cast hc) h1 h0 (by norm_num)
    _ = 100 := by norm_num

lemma new_flow_bounds (ip now : ℕ) : FlowBounds (new_flow_entry ip now) :=
  ⟨by show (35 : ℕ) ≤ 100; norm_num, by show (100 : ℕ) ≤ 1000; norm_num⟩

lemma prepopulate_bounds (f : FlowEntry) : FlowBounds (prepopulate_flow f) :=
  ⟨by show (75 : ℕ) ≤ 100; norm_num, by show (800 : ℕ) ≤ 1000; norm_num⟩

lemma burst_bounds (burst : Bool) (ml : ℚ) (f : FlowEntry) (hb : FlowBounds f) :
    FlowBounds (maybe_promote_burst burst ml f).1 := by
  obtain ⟨h1, h2⟩ := hb
  unfold maybe_promote_burst
  split_ifs <;> (try dsimp only [FlowBounds, CONFIDENCE_ULTRA_FAST, CONFIDENCE_FAST_TRACK]) <;> omega

lemma lifecycle_promote_bounds (ml : ℚ) (f : FlowEntry) (hb : FlowBounds f) :
    FlowBounds (lifecycle_promote ml f).1 := by
  obtain ⟨h1, h2⟩ := hb
  unfold lifecycle_promote
  split_ifs <;> (try dsimp only [FlowBounds, CONFIDENCE_FAST_TRACK]) <;> omega

lemma lifecycle_demote_bounds (idle ml : ℚ) (f : FlowEntry) (hb : FlowBounds f) :
    FlowBounds (lifecycle_demote idle ml f).1 := by
  obtain ⟨h1, h2⟩ := hb
  unfold lifecycle_demote
  split_ifs <;> (try dsimp only [FlowBounds]) <;> omega

lemma lifecycle_retire_bounds (idle : ℚ) (f : FlowEntry) (hb : FlowBounds f) :
    FlowBounds (lifecycle_retire idle f) := by
  obtain ⟨h1, h2⟩ := hb
  unfold lifecycle_retire
  split_ifs <;> (try dsimp only [FlowBounds]) <;> omega

lemma lifecycle_bounds (nowz : ℤ) (ml : ℚ) (f : FlowEntry) (hb : FlowBounds f) :
    FlowBounds (lifecycle_flow_step nowz ml f).1 := by
  show FlowBounds (lifecycle_retire _ (lifecycle_demote _ ml (lifecycle_promote ml f).1).1)
  exact lifecycle_retire_bounds _ _
    (lifecycle_demote_bounds _ ml _ (lifecycle_promote_bounds ml f hb))

lemma aging_bounds_nonadaptive (idle ml : ℚ) (f : FlowEntry) (st : AgingStrategy)
    (hb : FlowBounds f) (_hidle : 0 ≤ idle) (hst : st ≠ .AGING_ADAPTIVE) :
    FlowBounds (apply_aging_strategy idle ml f st) := by
  obtain ⟨h1, h2⟩ := hb
  cases st with
  | AGING_ADAPTIVE => exact absurd rfl hst
  | AGING_LINEAR =>
    unfold apply_aging_strategy
    dsimp only
    split_ifs <;> (try dsimp only [FlowBounds]) <;> omega
  | AGING_AGGRESSIVE =>
    unfold apply_aging_strategy
    dsimp only
    split_ifs <;> (try dsimp only [FlowBounds]) <;> omega
  | AGING_EXPONENTIAL =>
    unfold apply_aging_strategy
    dsimp only
    split_ifs with h hd
    · refine ⟨?_, h2⟩
      show castU16 ((f.confidence : ℚ) * (1 / 10)) ≤ 100
      exact conf_decay_le_100 _ h1 _ (by norm_num) (by norm_num)
    · refine ⟨?_, h2⟩
      show castU16 ((f.confidence : ℚ) * (1 - idle / 600)) ≤ 100
      refine conf_decay_le_100 _ h1 _ ?_ ?_
      · linarith [not_lt.mp hd]
      · have h600 : (0 : ℚ) ≤ idle / 600 := by positivity
        linarith
    · exact ⟨h1, h2⟩

lemma aging_bounds_adaptive (idle ml : ℚ) (f : FlowEntry) (hb : FlowBounds f)
    (hml0 : 0 ≤ ml) (hml1 : ml ≤ 1) (hidle : 0 ≤ idle) (h1200 : idle ≤ 1200) :
    FlowBounds (apply_aging_strategy idle ml f .AGING_ADAPTIVE) := by
  obtain ⟨h1, h2⟩ := hb
  refine ⟨?_, h2⟩
  show castU16 ((f.confidence : ℚ) * (1 - (idle / 1200) * (1 - ml * (8 / 10)))) ≤ 100
  have hd0 : (0 : ℚ) ≤ idle / 1200 := by positivity
  have hd1 : idle / 1200 ≤ 1 := by
    rw [div_le_one (by norm_num : (0 : ℚ) < 1200)]
    exact h1200
  have hm0 : (0 : ℚ) ≤ 1 - ml * (8 / 10) := by nlinarith
  have hm1 : 1 - ml * (8 / 10) ≤ 1 := by nlinarith
  have hdec0 : (0 : ℚ) ≤ (idle / 1200) * (1 - ml * (8 / 10)) := mul_nonneg hd0 hm0
  have hdec1 : (idle / 1200) * (1 - ml * (8 / 10)) ≤ 1 := by
    calc (idle / 1200) * (1 - ml * (8 / 10)) ≤ 1 * 1 := mul_le_mul hd1 hm1 hm0 (by norm_num)
    _ = 1 := by norm_num
  exact conf_decay_le_100 _ h1 _ (by linarith) (by linarith)

lemma aging_cycle_bounds (idle ml : ℚ) (f : FlowEntry) (hb : FlowBounds f)
    (hml0 : 0 ≤ ml) (hml1 : ml ≤ 1) (hidle : 0 ≤ idle)
    (h : idle ≤ 1200 ∨ f.aging.aging_strategy ≠ .AGING_ADAPTIVE) :
    FlowBounds (aging_cycle_flow_step idle ml f).1 := by
  have hf1 : FlowBounds (apply_aging_strategy idle ml f f.aging.aging_strategy) := by
    rcases eq_or_ne f.aging.aging_strategy .AGING_ADAPTIVE with he | he
    · rcases h with h1200 | hne
      · rw [he]; exact aging_bounds_adaptive idle ml f hb hml0 hml1 hidle h1200
      · exact absurd he hne
    · exact aging_bounds_nonadaptive idle ml f _ hb hidle he
  unfold aging_cycle_flow_step
  dsimp only
  by_cases hip : f.ip ≠ 0
  · rw [if_pos hip]
    by_cases hdem : (apply_aging_strategy idle ml f f.aging.aging_strategy).confidence < 10 ∧
        (apply_aging_strategy idle ml f f.aging.aging_strategy).flow_type ≠ .DYING_FLOW
    · rw [if_pos hdem]
      exact ⟨hf1.1, hf1.2⟩
    · rw [if_neg hdem]
      exact hf1
  · rw [if_neg hip]
    exact hb

lemma conf_boost_le (ml : ℚ) (f : FlowEntry) (hml0 : 0 ≤ ml) (h1 : f.confidence ≤ 100) :
    (flow_conf_boost ml f).confidence ≤ 100 := by
  have hboost : 0 ≤ castInt (ml * 6) := by
    unfold castInt truncRat
    rw [if_pos (by positivity)]
    exact Int.floor_nonneg.mpr (by positivity)
  unfold flow_conf_boost
  dsimp only
  split_ifs <;> (try dsimp only [FlowBounds]) <;> omega

lemma promo_update_bounds (path : ProcessingPath) (f : FlowEntry)
    (h2 : f.promotion_score ≤ 1000) :
    (flow_promo_update path f).promotion_score ≤ 1000 := by
  unfold flow_promo_update
  split_ifs <;> (try dsimp only [FlowBounds]) <;> omega

lemma post_update_bounds (now : ℕ) (ml : ℚ) (path : ProcessingPath) (f : FlowEntry)
    (hb : FlowBounds f) (hml0 : 0 ≤ ml) :
    FlowBounds (post_update_flow now ml path f).1 := by
  obtain ⟨h1, h2⟩ := hb
  constructor
  · show (flow_promo_update path (flow_anomaly (flow_reclassify
      (flow_conf_boost ml (flow_touch now f))))).confidence ≤ 100
    rw [flow_promo_update_confidence, flow_anomaly_confidence, flow_reclassify_confidence]
    exact conf_boost_le ml _ hml0 (by rw [flow_touch_confidence]; exact h1)
  · show (flow_promo_update path (flow_anomaly (flow_reclassify
      (flow_conf_boost ml (flow_touch now f))))).promotion_score ≤ 1000
    apply promo_update_bounds
    rw [flow_anomaly_promotion, flow_reclassify_promotion, flow_conf_boost_promotion,
      flow_touch_promotion]
    exact h2

end BoundsLemmas

/-- Evaluation of the wrapping uint16 conversion on a negative integral
argument, the de-facto behaviour of the UB conversion in the C source. -/
lemma castU16_neg_int (n : ℕ) (hn : 0 < n) (h : n ≤ 65536) :
    castU16 (-(n : ℚ)) = 65536 - n := by
  unfold castU16 truncRat
  have hneg : ¬ (0 : ℚ) ≤ -(n : ℚ) := by
    have : (0 : ℚ) < n := by exact_mod_cast hn
    linarith
  rw [if_neg hneg]
  have hfl : ⌊-(-(n : ℚ))⌋ = (n : ℤ) := by
    rw [neg_neg]
    exact_mod_cast Int.floor_natCast n
  rw [hfl]
  omega

/-- C6 counterexample: the invariant confidence ≤ 100 is NOT preserved by
every operation: aging a flow of confidence 50 under the Adaptive strategy
with idle 2400 s and prediction 1/2 computes decay 1.2, multiplies the
confidence by the negative 1 - 1.2 = -0.2, and the uint16 conversion of
the product -10 (undefined in ISO C, a wrap on common targets) leaves
confidence 65526 > 100. -/
theorem adaptive_aging_breaks_confidence_bound :
    FlowBounds flow_cex6 ∧
    (apply_aging_strategy 2400 (1 / 2) flow_cex6 .AGING_ADAPTIVE).confidence = 65526 ∧
    ¬ FlowBounds (apply_aging_strategy 2400 (1 / 2) flow_cex6 .AGING_ADAPTIVE) := by
  have hval : (apply_aging_strategy 2400 (1 / 2) flow_cex6 .AGING_ADAPTIVE).confidence
      = 65526 := by
    show castU16 ((flow_cex6.confidence : ℚ)
      * (1 - (2400 / 1200) * (1 - (1 / 2) * (8 / 10)))) = 65526
    have harg : ((flow_cex6.confidence : ℚ)
        * (1 - (2400 / 1200) * (1 - (1 / 2) * (8 / 10)))) = -((10 : ℕ) : ℚ) := by
      norm_num [flow_cex6, new_flow_entry]
    rw [harg, castU16_neg_int 10 (by norm_num) (by norm_num)]
  refine ⟨⟨by show (50 : ℕ) ≤ 100; norm_num, by show (100 : ℕ) ≤ 1000; norm_num⟩, hval, ?_⟩
  intro hcontra
  have hle := hcontra.1
  rw [hval] at hle
  exact absurd hle (by norm_num)

/-- C6 (amended): every listed operation preserves confidence ≤ 100 and
promotion_score ≤ 1000 — creation, pre-population, burst promotion, the
lifecycle pass, Linear/Exponential/Aggressive aging, the aging-cycle scan,
and the per-packet post-update — except that Adaptive aging preserves them
only while its decay cannot exceed 1 (idle ≤ 1200 s suffices); past that
the uint16 conversion of the negative product is UB and wraps on common
targets, pushing confidence above 100. -/
theorem flow_bounds_preserved (f : FlowEntry) (ml idle : ℚ) (now : ℕ) (nowz : ℤ)
    (path : ProcessingPath) (burst : Bool) (st : AgingStrategy)
    (hb : FlowBounds f) (hml0 : 0 ≤ ml) (hml1 : ml ≤ 1) (hidle : 0 ≤ idle) :
    FlowBounds (new_flow_entry f.ip now) ∧
    FlowBounds (prepopulate_flow (new_flow_entry f.ip now)) ∧
    FlowBounds (maybe_promote_burst burst ml f).1 ∧
    FlowBounds (lifecycle_flow_step nowz ml f).1 ∧
    (st ≠ .AGING_ADAPTIVE → FlowBounds (apply_aging_strategy idle ml f st)) ∧
    (idle ≤ 1200 → FlowBounds (apply_aging_strategy idle ml f .AGING_ADAPTIVE)) ∧
    (idle ≤ 1200 ∨ f.aging.aging_strategy ≠ .AGING_ADAPTIVE →
      FlowBounds (aging_cycle_flow_step idle ml f).1) ∧
    FlowBounds (post_update_flow now ml path f).1 :=
  ⟨new_flow_bounds _ _, prepopulate_bounds _, burst_bounds burst ml f hb,
    lifecycle_bounds nowz ml f hb,
    fun hst => aging_bounds_nonadaptive idle ml f st hb hidle hst,
    fun h1200 => aging_bounds_adaptive idle ml f hb hml0 hml1 hidle h1200,
    fun h => aging_cycle_bounds idle ml f hb hml0 hml1 hidle h,
    post_update_bounds now ml path f hb hml0⟩

/-- Witness for flow_bounds_preserved at a fresh flow, prediction 1/2,
idle 100 s: the per-packet post-update and Adaptive aging both keep the
bounds. -/
theorem flow_bounds_preserved_witness :
    FlowBounds (post_update_flow 0 (1 / 2) .FAST_PATH (new_flow_entry 7 0)).1 ∧
    FlowBounds (apply_aging_strategy 100 (1 / 2) (new_flow_entry 7 0) .AGING_ADAPTIVE) := by
  have h := flow_bounds_preserved (new_flow_entry 7 0) (1 / 2) 100 0 0 .FAST_PATH true
    .AGING_LINEAR
    ⟨by show (35 : ℕ) ≤ 100; norm_num, by show (100 : ℕ) ≤ 1000; norm_num⟩
    (by norm_num) (by norm_num) (by norm_num)
  exact ⟨h.2.2.2.2.2.2.2, h.2.2.2.2.2.1 (by norm_num)⟩

/-! ## Dispatcher state (OptimizedTable, hybrid_accelerated.c lines 128-195)

The arena (flow_pool) is a list of entries: pool_index is its length,
allocation appends.  Hash buckets hold lists of arena indices, newest at
the head, mirroring the intrusive next chains.  The direct-mapped cache
holds optional arena indices.  Wall-clock reads, burst detection (whose
per-second history feeds only printed statistics) and the floating-point
predictor are supplied per step by an Oracle. -/

structure PredictionCacheEntry where
  ip : ℕ
  prediction : ℚ
  suggested_path : ProcessingPath
  timestamp : ℕ
  confidence_level : ℕ

structure MLModelState where
  learning_rate : ℚ
  accuracy : ℚ
  validation_samples : ℕ
  validation_correct : ℕ
  last_adaptation : ℕ

structure AgingManagerState where
  last_aging_cycle : ℕ
  flows_aged_out : ℕ
  flows_demoted : ℕ
  flows_promoted : ℕ
  aging_pressure : ℚ
  memory_utilization : ℚ

structure SystemState where
  pool : List FlowEntry
  pool_size : ℕ
  buckets : ℕ → List ℕ
  total_entries : ℕ
  total_lookups : ℕ
  collision_count : ℕ
  fast_cache : ℕ → Option ℕ
  sketch : Sketch
  prediction_cache : ℕ → PredictionCacheEntry
  total_processed : ℕ
  cache_hits : ℕ
  cache_misses : ℕ
  path_counts : ProcessingPath → ℕ
  ml_predictions : ℕ
  ml_cache_hits : ℕ
  ultra_fast_promotions : ℕ
  confidence_updates : ℕ
  pattern_updates : ℕ
  ml_model : MLModelState
  aging_manager : AgingManagerState

/-- Per-step environment: the wall clock, the detect_burst_enhanced()
outcome, the enhanced_ml_predict values (a sigmoid, hence in (0,1)), and
the indeterminate value the C code reads from the never-initialised local
path variable when control reaches update_stats through the goto on the
flow-creation branch. -/
structure Oracle where
  now : ℕ
  burst : Bool
  ml : FlowEntry → ℚ
  indet : ProcessingPath

/-- Point update of a list, identity when the index is out of range. -/
def modifyIdx {α : Type} (l : List α) (i : ℕ) (g : α → α) : List α :=
  match l.get? i with
  | some a => l.set i (g a)
  | none => l

def zero_prediction_entry : PredictionCacheEntry where
  ip := 0
  prediction := 0
  suggested_path := .FAST_PATH
  timestamp := 0
  confidence_level := 0

/-- The zeroed state init_optimized_table builds (lines 573-586), with
the arena capacity abstracted so the spec's POOL=1 exhaustion scenario is
expressible; init_aging_manager stores the current wall clock and an
aging pressure of 0.3, init_ml_model a learning rate of 0.002. -/
def initState (pool_size now : ℕ) : SystemState where
  pool := []
  pool_size := pool_size
  buckets := fun _ => []
  total_entries := 0
  total_lookups := 0
  collision_count := 0
  fast_cache := fun _ => none
  sketch := sketch0
  prediction_cache := fun _ => zero_prediction_entry
  total_processed := 0
  cache_hits := 0
  cache_misses := 0
  path_counts := fun _ => 0
  ml_predictions := 0
  ml_cache_hits := 0
  ultra_fast_promotions := 0
  confidence_updates := 0
  pattern_updates := 0
  ml_model :=
    { learning_rate := 1 / 500
      accuracy := 0
      validation_samples := 0
      validation_correct := 0
      last_adaptation := 0 }
  aging_manager :=
    { last_aging_cycle := now
      flows_aged_out := 0
      flows_demoted := 0
      flows_promoted := 0
      aging_pressure := 3 / 10
      memory_utilization := 0 }

def init_optimized_table (now : ℕ) : SystemState :=
  initState (LARGE_FLOW_AREA_SIZE + BURSTY_FLOW_AREA_SIZE + MICRO_FLOW_AREA_SIZE) now

/-- Increment of one per-path counter. -/
def bump_path (pc : ProcessingPath → ℕ) (p : ProcessingPath) : ProcessingPath → ℕ :=
  fun q => if q = p then pc q + 1 else pc q

/-! ## Flow lookup and creation (lines 589-651) -/

/-- Walk of a hash chain: returns the first index whose entry carries ip,
and the number of advances made (the collision_count increments). -/
def chain_find (pool : List FlowEntry) (ip : ℕ) : List ℕ → ℕ → Option ℕ × ℕ
  | [], steps => (none, steps)
  | idx :: rest, steps =>
    match pool.get? idx with
    | some e => if e.ip = ip then (some idx, steps) else chain_find pool ip rest (steps + 1)
    | none => chain_find pool ip rest (steps + 1)

/-- The hash-chain part of find_flow_fast (lines 599-613): count the
lookup, walk the bucket, install the entry in the cache slot on a hit,
count a miss otherwise. -/
def find_flow_slow (ip cache_idx : ℕ) (s : SystemState) : SystemState × Option ℕ :=
  let s1 := { s with total_lookups := s.total_lookups + 1 }
  let bucket := fast_hash ip % HASH_TABLE_SIZE
  let r := chain_find s.pool ip (s.buckets bucket) 0
  match r.1 with
  | some idx =>
    ({ s1 with
        collision_count := s1.collision_count + r.2
        fast_cache := fun c => if c = cache_idx then some idx else s1.fast_cache c }, some idx)
  | none =>
    ({ s1 with
        collision_count := s1.collision_count + r.2
        cache_misses := s1.cache_misses + 1 }, none)

/-- find_flow_fast (lines 589-614): probe the direct-mapped cache slot
first; a hit bumps the global and per-flow cache-hit counters. -/
def find_flow_fast (ip : ℕ) (s : SystemState) : SystemState × Option ℕ :=
  let cache_idx := fast_hash ip % CACHE_SIZE
  match s.fast_cache cache_idx with
  | some ci =>
    match s.pool.get? ci with
    | some e =>
      if e.ip = ip then
        ({ s with
            cache_hits := s.cache_hits + 1
            pool := modifyIdx s.pool ci
              (fun g => { g with cache_hits := (g.cache_hits + 1) % U32_MOD }) }, some ci)
      else find_flow_slow ip cache_idx s
    | none => find_flow_slow ip cache_idx s
  | none => find_flow_slow ip cache_idx s

/-- create_flow_fast (lines 617-651): fail when the arena is full, else
append a fresh entry and link it at the head of its bucket. -/
def create_flow_fast (now ip : ℕ) (s : SystemState) : SystemState × Option ℕ :=
  if s.pool_size ≤ s.pool.length then (s, none)
  else
    let idx := s.pool.length
    let bucket := fast_hash ip % HASH_TABLE_SIZE
    ({ s with
        pool := s.pool ++ [new_flow_entry ip now]
        buckets := fun b => if b = bucket then idx :: s.buckets b else s.buckets b
        total_entries := s.total_entries + 1 }, some idx)

/-! ## Stateful prediction cache, selection and validation (lines 338-360,
712-778) -/

def castU8 (x : ℚ) : ℕ := (truncRat x % (256 : ℤ)).toNat

def check_prediction_cache (now ip : ℕ) (s : SystemState) : SystemState × Option ℚ :=
  let cache_idx := fast_hash ip % PREDICTION_CACHE_SIZE
  let cached := s.prediction_cache cache_idx
  if cached.ip = ip ∧ (now : ℤ) - (cached.timestamp : ℤ) < 30 then
    ({ s with ml_cache_hits := s.ml_cache_hits + 1 }, some cached.prediction)
  else (s, none)

def update_prediction_cache (now ip : ℕ) (p : ℚ) (path : ProcessingPath)
    (s : SystemState) : SystemState :=
  let cache_idx := fast_hash ip % PREDICTION_CACHE_SIZE
  { s with prediction_cache := fun c =>
      if c = cache_idx then
        { ip := ip
          prediction := p
          suggested_path := path
          timestamp := now
          confidence_level := castU8 (p * 255) }
      else s.prediction_cache c }

/-- Lines 734-759 for a present flow past the cache probe: first-packet
acceleration, else the ML-driven main rule, caching the prediction for
established flows.  One enhanced_ml_predict call happens on the main-rule
branch. -/
def select_path_rest (o : Oracle) (ip : ℕ) (f : FlowEntry) (s : SystemState) :
    SystemState × ProcessingPath :=
  if f.hits = 1 then (s, .ACCELERATED_PATH)
  else
    let ml := o.ml f
    let s1 := { s with ml_predictions := s.ml_predictions + 1 }
    let path := select_path_main_rule ml f
    let s2 := if 2 < f.hits then update_prediction_cache o.now ip ml path s1 else s1
    (s2, path)

/-- select_path_enhanced (lines 712-760), stateful: its pure decision
component is select_path_decision. -/
def select_path_enhanced (o : Oracle) (ip : ℕ) (flowIdx : Option ℕ) (s : SystemState) :
    SystemState × ProcessingPath :=
  match flowIdx with
  | some fi =>
    match s.pool.get? fi with
    | some f =>
      if 2 < f.hits then
        let r := check_prediction_cache o.now ip s
        match r.2 with
        | some p => (r.1, cache_mapped_path p)
        | none => select_path_rest o ip f r.1
      else select_path_rest o ip f s
    | none => (s, if 8 < sketch_query_fast s.sketch ip then .ACCELERATED_PATH else .SLOW_PATH)
  | none => (s, if 8 < sketch_query_fast s.sketch ip then .ACCELERATED_PATH else .SLOW_PATH)

/-- Burst promotion at state level (lines 685-709): the predictor runs
only when a burst is detected; an ultra promotion bumps flows_promoted
and ultra_fast_promotions. -/
def maybe_promote_burst_state (o : Oracle) (idx : ℕ) (s : SystemState) : SystemState :=
  match s.pool.get? idx with
  | none => s
  | some f =>
    if o.burst then
      let r := maybe_promote_burst true (o.ml f) f
      let s1 := { s with
        pool := modifyIdx s.pool idx (fun _ => r.1)
        ml_predictions := s.ml_predictions + 1 }
      if r.2 then
        { s1 with
          aging_manager := { s1.aging_manager with
            flows_promoted := s1.aging_manager.flows_promoted + 1 }
          ultra_fast_promotions := s1.ultra_fast_promotions + 1 }
      else s1
    else s

/-- validate_ml_prediction (lines 763-778). -/
def validate_ml_prediction (o : Oracle) (idx : ℕ) (actual_path : ProcessingPath)
    (s : SystemState) : SystemState :=
  match s.pool.get? idx with
  | none => s
  | some f =>
    if f.hits < 5 then s
    else
      let pred := o.ml f
      let predicted_fast : Bool := decide (pred > 3 / 5)
      let actual_fast : Bool := decide (pathCode actual_path ≤ pathCode .FAST_PATH)
      let s1 := { s with
        ml_predictions := s.ml_predictions + 1
        ml_model := { s.ml_model with
          validation_samples := (s.ml_model.validation_samples + 1) % U32_MOD } }
      if predicted_fast = actual_fast then
        { s1 with ml_model := { s1.ml_model with
            validation_correct := (s1.ml_model.validation_correct + 1) % U32_MOD } }
      else s1

/-! ## Periodic maintenance (lines 419-451, 529-570, 903-942) -/

/-- One slot of the enhanced_aging_cycle scan (lines 553-567); the
predictor is consulted only by the Adaptive strategy on an active flow. -/
def aging_cycle_scan_step (o : Oracle) (s : SystemState) (i : ℕ) : SystemState :=
  let flow_idx := (s.total_processed + i) % s.pool.length
  match s.pool.get? flow_idx with
  | none => s
  | some f =>
    let idle : ℚ := (((o.now : ℤ) - (f.last_seen : ℤ) : ℤ) : ℚ)
    let r := aging_cycle_flow_step idle (o.ml f) f
    { s with
      pool := modifyIdx s.pool flow_idx (fun _ => r.1)
      ml_predictions :=
        if f.ip ≠ 0 ∧ f.aging.aging_strategy = .AGING_ADAPTIVE
        then s.ml_predictions + 1 else s.ml_predictions
      aging_manager :=
        if r.2 then
          { s.aging_manager with flows_demoted := s.aging_manager.flows_demoted + 1 }
        else s.aging_manager }

/-- enhanced_aging_cycle (lines 529-570).  The C code computes
flows_to_age as (int)(pool_index * 0.1); for the in-range values here
that truncation equals natural division by 10. -/
def enhanced_aging_cycle (o : Oracle) (s : SystemState) : SystemState :=
  if (o.now : ℤ) - (s.aging_manager.last_aging_cycle : ℤ) < 30 then s
  else
    let mem_util : ℚ := (s.pool.length : ℚ) / (s.pool_size : ℚ)
    let pressure : ℚ :=
      if mem_util > 85 / 100 then 9 / 10
      else if mem_util > 7 / 10 then 3 / 5
      else 3 / 10
    let flows_to_age := s.pool.length / 10
    let s1 := { s with aging_manager := { s.aging_manager with
        memory_utilization := mem_util
        aging_pressure := pressure } }
    let s2 := (List.range (min flows_to_age s.pool.length)).foldl (aging_cycle_scan_step o) s1
    { s2 with aging_manager := { s2.aging_manager with last_aging_cycle := o.now } }

/-- One slot of manage_flow_lifecycle (lines 908-938): slots whose ip is
0 are skipped; otherwise the promote/demote/retire chain runs and the
promotion and demotion tallies feed the aging manager (lines 940-941). -/
def manage_flow_lifecycle_step (o : Oracle) (s : SystemState) (i : ℕ) : SystemState :=
  match s.pool.get? i with
  | none => s
  | some f =>
    if f.ip = 0 then s
    else
      let r := lifecycle_flow_step (o.now : ℤ) (o.ml f) f
      { s with
        pool := modifyIdx s.pool i (fun _ => r.1)
        ml_predictions := s.ml_predictions + 1
        aging_manager := { s.aging_manager with
          flows_promoted :=
            if r.2.1 then s.aging_manager.flows_promoted + 1 else s.aging_manager.flows_promoted
          flows_demoted :=
            if r.2.2 then s.aging_manager.flows_demoted + 1 else s.aging_manager.flows_demoted } }

def manage_flow_lifecycle (o : Oracle) (s : SystemState) : SystemState :=
  (List.range (min s.pool.length 1000)).foldl (manage_flow_lifecycle_step o) s

/-- adapt_ml_model (lines 419-451). -/
def adapt_ml_model (s : SystemState) : SystemState :=
  if s.total_processed - s.ml_model.last_adaptation < ML_ADAPTATION_INTERVAL then s
  else
    let m := s.ml_model
    let m1 :=
      if 0 < m.validation_samples then
        let acc : ℚ := (m.validation_correct : ℚ) / (m.validation_samples : ℚ)
        let lr1 :=
          if acc > 85 / 100 then m.learning_rate * (98 / 100)
          else if acc < 7 / 10 then m.learning_rate * (105 / 100)
          else m.learning_rate
        let lr2 := if lr1 > 1 / 100 then 1 / 100 else lr1
        let lr3 := if lr2 < 5 / 10000 then 5 / 10000 else lr2
        { m with
          accuracy := acc
          learning_rate := lr3
          validation_samples := 0
          validation_correct := 0 }
      else m
    { s with ml_model := { m1 with last_adaptation := s.total_processed } }

/-! ## The per-packet dispatcher (process_packet_optimized, lines 781-900)

When the lookup misses and creation succeeds, the C code runs the
Accelerated work, counts it, records the pattern and jumps to
update_stats; when creation fails it jumps straight to update_stats, so
NO path is selected, executed or counted for that packet.  In both goto
cases the local path variable read by the promotion-score update is
never initialised; the oracle's indet field supplies that value. -/

def process_packet_optimized (o : Oracle) (s : SystemState) (ip : ℕ) : SystemState :=
  let s0 := { s with sketch := sketch_update_fast s.sketch ip }
  let fr := find_flow_fast ip s0
  let core :=
    match fr.2 with
    | some idx =>
      let sE := maybe_promote_burst_state o idx fr.1
      let sel := select_path_enhanced o ip (some idx) sE
      let sF := { sel.1 with path_counts := bump_path sel.1.path_counts sel.2 }
      let sG :=
        if sel.2 = ProcessingPath.ADAPTIVE_PATH then
          { sF with ml_predictions := sF.ml_predictions + 1 }
        else sF
      let sH := { sG with
        pool := modifyIdx sG.pool idx (fun g => update_flow_pattern g sel.2)
        pattern_updates := sG.pattern_updates + 1 }
      (validate_ml_prediction o idx sel.2 sH, some idx, sel.2)
    | none =>
      let cr := create_flow_fast o.now ip fr.1
      match cr.2 with
      | some idx =>
        let sB := { cr.1 with path_counts := bump_path cr.1.path_counts .ACCELERATED_PATH }
        let sC := { sB with
          pool := modifyIdx sB.pool idx (fun g => update_flow_pattern g .ACCELERATED_PATH)
          pattern_updates := sB.pattern_updates + 1 }
        (sC, some idx, o.indet)
      | none => (cr.1, none, o.indet)
  let s1 := core.1
  let s2 :=
    match core.2.1 with
    | some idx =>
      match s1.pool.get? idx with
      | some f =>
        let r := post_update_flow o.now (o.ml f) core.2.2 f
        { s1 with
          pool := modifyIdx s1.pool idx (fun _ => r.1)
          confidence_updates :=
            if r.2 then s1.confidence_updates + 1 else s1.confidence_updates
          ml_predictions := if r.2 then s1.ml_predictions + 1 else s1.ml_predictions }
      | none => s1
    | none => s1
  let s3 := { s2 with total_processed := s2.total_processed + 1 }
  let s4 := if s3.total_processed % AGING_INTERVAL = 0 then enhanced_aging_cycle o s3 else s3
  if s4.total_processed % ML_ADAPTATION_INTERVAL = 0 then adapt_ml_model s4 else s4

def process_run (o : Oracle) (s : SystemState) (ips : List ℕ) : SystemState :=
  ips.foldl (process_packet_optimized o) s

/-- Sum of the six per-path dispatch counters. -/
def path_count_sum (s : SystemState) : ℕ :=
  s.path_counts .FAST_PATH + s.path_counts .ACCELERATED_PATH
    + s.path_counts .ULTRA_FAST_PATH + s.path_counts .SLOW_PATH
    + s.path_counts .ADAPTIVE_PATH + s.path_counts .DEEP_ANALYSIS_PATH

/-- The flow-type tally of print_enhanced_statistics (lines 988-1005):
slots whose ip is 0 are skipped as unused. -/
def flow_type_counts (pool : List FlowEntry) : FlowType → ℕ :=
  pool.foldl
    (fun acc f =>
      if f.ip = 0 then acc
      else fun t => if t = f.flow_type then acc t + 1 else acc t)
    (fun _ => 0)

/-- A fixed benign oracle for concrete runs. -/
def oracle0 : Oracle where
  now := 0
  burst := false
  ml := fun _ => 1 / 2
  indet := .SLOW_PATH

/-! ## Claim C1 -/

/-- C1 (code bug): with an arena of capacity 1, processing packets 1 then
2 creates one flow and counts one Accelerated dispatch for packet 1; for
packet 2 creation fails and the dispatcher jumps straight to update_stats,
so no path is selected, executed or counted — the sketch-only fallback
branch inside select_path_enhanced is unreachable because of that goto.
The per-path counts sum to 1 while total_processed is 2, contradicting the
claim that the counts sum to the number of packets processed. -/
theorem arena_exhaustion_drops_path_accounting :
    path_count_sum (process_run oracle0 (initState 1 0) [1, 2]) = 1 ∧
    (process_run oracle0 (initState 1 0) [1, 2]).total_processed = 2 :=
  ⟨by decide, by decide⟩

/-! ## Claim C10: supporting lemmas -/

section KeyZeroLemmas

lemma modifyIdx_length {α : Type} (l : List α) (i : ℕ) (g : α → α) :
    (modifyIdx l i g).length = l.length := by
  unfold modifyIdx
  split
  · exact List.length_set l i _
  · rfl

lemma get?_modifyIdx {α : Type} (l : List α) (i j : ℕ) (g : α → α) :
    (modifyIdx l i g).get? j = if j = i then (l.get? i).map g else l.get? j := by
  unfold modifyIdx
  cases h : l.get? i with
  | none =>
    split_ifs with hj
    · subst hj; rw [h]; rfl
    · rfl
  | some a =>
    have hlen : i < l.length := by
      rcases lt_or_ge i l.length with hl | hge
      · exact hl
      · rw [List.get?_eq_none.mpr hge] at h
        exact Option.noConfusion h
    split_ifs with hj
    · subst hj
      show (l.set j (g a)).get? j = Option.map g (some a)
      rw [List.get?_eq_getElem?, List.getElem?_set]
      simp [hlen]
    · show (l.set i (g a)).get? j = l.get? j
      rw [List.get?_eq_getElem?, List.getElem?_set, if_neg (fun he => hj he.symm),
        ← List.get?_eq_getElem?]

lemma find_flow_slow_sketch (ip ci : ℕ) (s : SystemState) (x : Sketch) :
    find_flow_slow ip ci { s with sketch := x }
      = ({ (find_flow_slow ip ci s).1 with sketch := x }, (find_flow_slow ip ci s).2) := by
  unfold find_flow_slow
  dsimp only
  split <;> rfl

lemma find_flow_fast_sketch (ip : ℕ) (s : SystemState) (x : Sketch) :
    find_flow_fast ip { s with sketch := x }
      = ({ (find_flow_fast ip s).1 with sketch := x }, (find_flow_fast ip s).2) := by
  unfold find_flow_fast
  dsimp only
  cases hc : s.fast_cache (fast_hash ip % CACHE_SIZE) with
  | none =>
    dsimp only
    exact find_flow_slow_sketch ip _ s x
  | some ci =>
    dsimp only
    cases he : s.pool.get? ci with
    | none =>
      dsimp only
      exact find_flow_slow_sketch ip _ s x
    | some e =>
      dsimp only
      split_ifs with hip
      · rfl
      · exact find_flow_slow_sketch ip _ s x

lemma check_prediction_cache_pool (now ip : ℕ) (s : SystemState) :
    (check_prediction_cache now ip s).1.pool = s.pool := by
  unfold check_prediction_cache
  dsimp only
  split_ifs <;> rfl

lemma select_path_rest_pool (o : Oracle) (ip : ℕ) (f : FlowEntry) (s : SystemState) :
    (select_path_rest o ip f s).1.pool = s.pool := by
  unfold select_path_rest update_prediction_cache
  dsimp only
  split_ifs <;> rfl

lemma select_path_enhanced_pool (o : Oracle) (ip : ℕ) (fi : Option ℕ) (s : SystemState) :
    (select_path_enhanced o ip fi s).1.pool = s.pool := by
  unfold select_path_enhanced select_path_rest check_prediction_cache update_prediction_cache
  dsimp only
  repeat' split
  all_goals rfl

lemma validate_ml_prediction_pool (o : Oracle) (idx : ℕ) (p : ProcessingPath)
    (s : SystemState) : (validate_ml_prediction o idx p s).pool = s.pool := by
  unfold validate_ml_prediction
  dsimp only
  repeat' split
  all_goals rfl

lemma adapt_ml_model_pool (s : SystemState) : (adapt_ml_model s).pool = s.pool := by
  unfold adapt_ml_model
  dsimp only
  split_ifs <;> rfl

lemma maybe_promote_burst_state_get (o : Oracle) (idx : ℕ) (s : SystemState)
    (f : FlowEntry) (hf : s.pool.get? idx = some f) :
    (maybe_promote_burst_state o idx s).pool.get? idx
      = some (if o.burst then (maybe_promote_burst true (o.ml f) f).1 else f) := by
  unfold maybe_promote_burst_state
  rw [hf]
  dsimp only
  cases hb : o.burst with
  | false => simpa using hf
  | true =>
    simp only [if_true]
    split_ifs <;> (dsimp only; rw [get?_modifyIdx, if_pos rfl, hf]; rfl)

lemma foldl_state_pres {g : SystemState → ℕ → SystemState} {P : SystemState → Prop}
    (h : ∀ s i, P s → P (g s i)) :
    ∀ (l : List ℕ) (s : SystemState), P s → P (l.foldl g s) := by
  intro l
  induction l with
  | nil => exact fun s hs => hs
  | cons a t ih => exact fun s hs => ih (g s a) (h s a hs)

lemma aging_cycle_flow_step_hits (idle ml : ℚ) (f : FlowEntry) :
    ((aging_cycle_flow_step idle ml f).1).hits = f.hits := by
  unfold aging_cycle_flow_step
  dsimp only
  split_ifs <;> simp [aging_hits]

lemma aging_cycle_flow_step_ip0 (idle ml : ℚ) (f : FlowEntry) (h0 : f.ip = 0) :
    aging_cycle_flow_step idle ml f = (f, false) := by
  unfold aging_cycle_flow_step
  rw [if_neg (by simp [h0])]

lemma aging_scan_hits (o : Oracle) (k : ℕ) (s : SystemState) (i : ℕ) :
    ((aging_cycle_scan_step o s i).pool.get? k).map FlowEntry.hits
      = (s.pool.get? k).map FlowEntry.hits := by
  unfold aging_cycle_scan_step
  dsimp only
  split
  · rfl
  · next fi hfi =>
    dsimp only
    rw [get?_modifyIdx]
    split_ifs with hj
    · rw [hj, hfi]
      simp [aging_cycle_flow_step_hits]
    · rfl

lemma aging_scan_ip0 (o : Oracle) (k : ℕ) (f : FlowEntry) (h0 : f.ip = 0)
    (s : SystemState) (i : ℕ) (hk : s.pool.get? k = some f) :
    (aging_cycle_scan_step o s i).pool.get? k = some f := by
  unfold aging_cycle_scan_step
  dsimp only
  split
  · exact hk
  · next fi hfi =>
    dsimp only
    rw [get?_modifyIdx]
    split_ifs with hj
    · rw [hj] at hk
      rw [hfi] at hk
      have hfe : fi = f := Option.some.inj hk
      subst hfe
      rw [hfi]
      simp [aging_cycle_flow_step_ip0 _ _ _ h0]
    · exact hk

lemma enhanced_aging_hits (o : Oracle) (s : SystemState) (k : ℕ) :
    ((enhanced_aging_cycle o s).pool.get? k).map FlowEntry.hits
      = (s.pool.get? k).map FlowEntry.hits := by
  unfold enhanced_aging_cycle
  dsimp only
  split_ifs <;> first
    | rfl
    | exact foldl_state_pres
        (P := fun st => (st.pool.get? k).map FlowEntry.hits = (s.pool.get? k).map FlowEntry.hits)
        (fun st i hst => (aging_scan_hits o k st i).trans hst) _ _ rfl

lemma enhanced_aging_ip0 (o : Oracle) (s : SystemState) (k : ℕ) (f : FlowEntry)
    (hk : s.pool.get? k = some f) (h0 : f.ip = 0) :
    (enhanced_aging_cycle o s).pool.get? k = some f := by
  unfold enhanced_aging_cycle
  dsimp only
  split_ifs <;> first
    | exact hk
    | exact foldl_state_pres (P := fun st => st.pool.get? k = some f)
        (fun st i hst => aging_scan_ip0 o k f h0 st i hst) _ _ hk

lemma lifecycle_scan_ip0 (o : Oracle) (k : ℕ) (f : FlowEntry) (h0 : f.ip = 0)
    (s : SystemState) (i : ℕ) (hk : s.pool.get? k = some f) :
    (manage_flow_lifecycle_step o s i).pool.get? k = some f := by
  unfold manage_flow_lifecycle_step
  dsimp only
  split
  · exact hk
  · next fi hfi =>
    by_cases hip : fi.ip = 0
    · rw [if_pos hip]; exact hk
    · rw [if_neg hip]
      dsimp only
      rw [get?_modifyIdx]
      split_ifs with hj
      · exfalso
        rw [hj] at hk
        rw [hfi] at hk
        have hfe : fi = f := Option.some.inj hk
        exact hip (by rw [hfe]; exact h0)
      · exact hk

lemma manage_flow_lifecycle_ip0 (o : Oracle) (s : SystemState) (k : ℕ) (f : FlowEntry)
    (hk : s.pool.get? k = some f) (h0 : f.ip = 0) :
    (manage_flow_lifecycle o s).pool.get? k = some f :=
  foldl_state_pres (P := fun st => st.pool.get? k = some f)
    (fun st i hst => lifecycle_scan_ip0 o k f h0 st i hst) _ _ hk

lemma flow_type_counts_aux (pool : List FlowEntry) :
    ∀ acc : FlowType → ℕ,
      pool.foldl
        (fun acc f =>
          if f.ip = 0 then acc
          else fun t => if t = f.flow_type then acc t + 1 else acc t) acc
      = (pool.filter (fun f => f.ip != 0)).foldl
        (fun acc f =>
          if f.ip = 0 then acc
          else fun t => if t = f.flow_type then acc t + 1 else acc t) acc := by
  induction pool with
  | nil => intro acc; rfl
  | cons a t ih =>
    intro acc
    by_cases h0 : a.ip = 0
    · rw [List.foldl_cons, List.filter_cons]
      simp [h0, ih]
    · rw [List.foldl_cons, List.filter_cons]
      simp [h0, ih]

/-- The statistics tally ignores slots whose key is 0. -/
lemma flow_type_counts_skip_zero (pool : List FlowEntry) :
    flow_type_counts pool = flow_type_counts (pool.filter (fun f => f.ip != 0)) :=
  flow_type_counts_aux pool (fun _ => 0)

/-- The state create_flow_fast builds when the arena has room. -/
lemma create_flow_fast_eq (s : SystemState) (now ip : ℕ)
    (hroom : s.pool.length < s.pool_size) :
    create_flow_fast now ip s
      = ({ s with
            pool := s.pool ++ [new_flow_entry ip now]
            buckets := fun b =>
              if b = fast_hash ip % HASH_TABLE_SIZE then s.pool.length :: s.buckets b
              else s.buckets b
            total_entries := s.total_entries + 1 }, some s.pool.length) := by
  unfold create_flow_fast
  rw [if_neg (not_le.mpr hroom)]

/-- The index returned by find_flow_slow is the result of the chain walk. -/
lemma find_flow_slow_snd (ip c : ℕ) (s : SystemState) :
    (find_flow_slow ip c s).2
      = (chain_find s.pool ip (s.buckets (fast_hash ip % HASH_TABLE_SIZE)) 0).1 := by
  unfold find_flow_slow
  dsimp only
  split
  · next idx h => rw [h]
  · next h => rw [h]

/-- After creating a key-0 flow, the slow (hash-chain) lookup for key 0
returns the fresh index: create prepends it at the head of its bucket. -/
lemma slow_finds_key0 (now : ℕ) (s : SystemState) (c : ℕ)
    (hroom : s.pool.length < s.pool_size) :
    (find_flow_slow 0 c (create_flow_fast now 0 s).1).2 = some s.pool.length := by
  rw [create_flow_fast_eq s now 0 hroom, find_flow_slow_snd]
  dsimp only
  rw [if_pos rfl]
  show (chain_find (s.pool ++ [new_flow_entry 0 now]) 0
      (s.pool.length :: s.buckets (fast_hash 0 % HASH_TABLE_SIZE)) 0).1 = some s.pool.length
  unfold chain_find
  rw [List.get?_concat_length]
  dsimp only
  rw [if_pos (show (new_flow_entry 0 now).ip = 0 from rfl)]

/-- Creating a flow for key 0 succeeds whenever the arena has room, the
new entry (whose ip field is 0) is stored at the fresh index, and - when
no pre-existing entry carries ip 0 - the fast lookup for key 0 returns
exactly that index. -/
lemma create_find_key0 (now : ℕ) (s : SystemState)
    (hroom : s.pool.length < s.pool_size)
    (hnz : ∀ e ∈ s.pool, e.ip ≠ 0) :
    (create_flow_fast now 0 s).2 = some s.pool.length ∧
    (create_flow_fast now 0 s).1.pool.get? s.pool.length = some (new_flow_entry 0 now) ∧
    (find_flow_fast 0 (create_flow_fast now 0 s).1).2 = some s.pool.length := by
  refine ⟨by rw [create_flow_fast_eq s now 0 hroom], ?_, ?_⟩
  · rw [create_flow_fast_eq s now 0 hroom]
    exact List.get?_concat_length _ _
  · have hslow : ∀ c, (find_flow_slow 0 c (create_flow_fast now 0 s).1).2
        = some s.pool.length := fun c => slow_finds_key0 now s c hroom
    rw [create_flow_fast_eq s now 0 hroom] at hslow ⊢
    unfold find_flow_fast
    dsimp only
    cases hcache : s.fast_cache (fast_hash 0 % CACHE_SIZE) with
    | none => exact hslow _
    | some ci =>
      dsimp only
      rcases Nat.lt_trichotomy ci s.pool.length with hlt | heq | hgt
      · rw [List.get?_append hlt]
        cases hg : s.pool.get? ci with
        | none =>
          exact absurd (List.get?_eq_none.mp hg) (not_le.mpr hlt)
        | some e =>
          dsimp only
          rw [if_neg (hnz e (List.get?_mem hg))]
          exact hslow _
      · subst heq
        rw [List.get?_concat_length]
        dsimp only
        rw [if_pos (show (new_flow_entry 0 now).ip = 0 from rfl)]
      · have hnone : (s.pool ++ [new_flow_entry 0 now]).get? ci = none :=
          List.get?_eq_none.mpr
            (by simp only [List.length_append, List.length_singleton]; omega)
        rw [hnone]
        exact hslow _

/-- Distribution of the state fields over a conditional. -/
lemma ite_state_pool (c : Prop) [Decidable c] (a b : SystemState) :
    (if c then a else b).pool = if c then a.pool else b.pool := apply_ite _ c a b

lemma ite_list_get (c : Prop) [Decidable c] (a b : List FlowEntry) (k : ℕ) :
    (if c then a else b).get? k = if c then a.get? k else b.get? k :=
  apply_ite (fun l => l.get? k) c a b

lemma ite_option_map (c : Prop) [Decidable c] (g : FlowEntry → ℕ)
    (a b : Option FlowEntry) :
    Option.map g (if c then a else b) = if c then a.map g else b.map g :=
  apply_ite _ c a b

lemma ite_option_map_entry (c : Prop) [Decidable c] (g : FlowEntry → FlowEntry)
    (a b : Option FlowEntry) :
    Option.map g (if c then a else b) = if c then a.map g else b.map g :=
  apply_ite _ c a b

set_option maxRecDepth 2000 in
set_option maxHeartbeats 1000000 in
/-- A packet whose lookup lands on the flow at index idx leaves that
slot holding hits + 1 (mod 2^16) after the whole dispatcher step: the
burst, selection, pattern, validation, post-update, aging and adaptation
stages either preserve the hits field or, for the post-update, bump it
exactly once.  The hypothesis speaks of the lookup performed on the
sketch-updated state, exactly as process_packet_optimized performs it. -/
lemma step_found_hits (o : Oracle) (s : SystemState) (ip idx : ℕ) (f : FlowEntry)
    (hfind : (find_flow_fast ip { s with sketch := sketch_update_fast s.sketch ip }).2 = some idx)
    (hget : (find_flow_fast ip
        { s with sketch := sketch_update_fast s.sketch ip }).1.pool.get? idx = some f) :
    ((process_packet_optimized o s ip).pool.get? idx).map FlowEntry.hits
      = some ((f.hits + 1) % U16_MOD) := by
  have hE := maybe_promote_burst_state_get o idx _ f hget
  unfold process_packet_optimized
  simp only [hfind, validate_ml_prediction_pool, select_path_enhanced_pool,
    get?_modifyIdx, hE, Option.map_some', eq_self_iff_true,
    if_true, ite_state_pool, ite_list_get, ite_option_map, ite_option_map_entry, ite_self,
    enhanced_aging_hits, adapt_ml_model_pool, pattern_hits, post_update_flow_hits]
  by_cases hb : o.burst <;> simp [hb, burst_hits]

end KeyZeroLemmas

/-! ## Claim C10 -/

/-- C10: a packet with key 0 creates a live flow entry - create_flow_fast
accepts ip 0 whenever the arena has room and stores the fresh entry, whose
ip field is 0, at the new index - the lookup returns that entry, and the
dispatcher updates it like any other flow (two key-0 packets from the
empty table leave the flow with hits 3: 1 at creation plus one post-update
increment per packet); yet the aging cycle and the lifecycle pass leave
every entry whose ip is 0 untouched, and the statistics tally counts only
entries with non-zero ip, so a key-0 flow is never aged, promoted,
demoted, retired or reported. -/
theorem key_zero_flow_live_but_unmaintained :
    (∀ (now : ℕ) (s : SystemState),
        s.pool.length < s.pool_size →
        (∀ e ∈ s.pool, e.ip ≠ 0) →
        (create_flow_fast now 0 s).2 = some s.pool.length ∧
        (create_flow_fast now 0 s).1.pool.get? s.pool.length
          = some (new_flow_entry 0 now) ∧
        (new_flow_entry 0 now).ip = 0 ∧
        (find_flow_fast 0 (create_flow_fast now 0 s).1).2 = some s.pool.length) ∧
    (∀ (o : Oracle) (s : SystemState) (ip idx : ℕ) (f : FlowEntry),
        (find_flow_fast ip { s with sketch := sketch_update_fast s.sketch ip }).2
          = some idx →
        (find_flow_fast ip
            { s with sketch := sketch_update_fast s.sketch ip }).1.pool.get? idx
          = some f →
        ((process_packet_optimized o s ip).pool.get? idx).map FlowEntry.hits
          = some ((f.hits + 1) % U16_MOD)) ∧
    (∀ (o : Oracle) (s : SystemState) (k : ℕ) (f : FlowEntry),
        s.pool.get? k = some f → f.ip = 0 →
        (enhanced_aging_cycle o s).pool.get? k = some f ∧
        (manage_flow_lifecycle o s).pool.get? k = some f) ∧
    (∀ pool : List FlowEntry,
        flow_type_counts pool = flow_type_counts (pool.filter (fun f => f.ip != 0))) := by
  refine ⟨?_, step_found_hits, ?_, flow_type_counts_skip_zero⟩
  · intro now s hroom hnz
    obtain ⟨h1, h2, h3⟩ := create_find_key0 now s hroom hnz
    exact ⟨h1, h2, rfl, h3⟩
  · intro o s k f hk h0
    exact ⟨enhanced_aging_ip0 o s k f hk h0, manage_flow_lifecycle_ip0 o s k f hk h0⟩

/-- Witness for C10 at a concrete input: starting from the empty table of
capacity 4, creating the key-0 flow at time 7 succeeds at index 0, the
lookup finds it, the next key-0 packet bumps its hits from 1 to 2, and
both maintenance passes leave it exactly as created. -/
theorem key_zero_flow_live_but_unmaintained_witness :
    (create_flow_fast 7 0 (initState 4 0)).2 = some 0 ∧
    (find_flow_fast 0 (create_flow_fast 7 0 (initState 4 0)).1).2 = some 0 ∧
    ((process_packet_optimized oracle0 (create_flow_fast 7 0 (initState 4 0)).1 0).pool.get?
        0).map FlowEntry.hits = some 2 ∧
    (enhanced_aging_cycle oracle0 (create_flow_fast 7 0 (initState 4 0)).1).pool.get? 0
      = some (new_flow_entry 0 7) ∧
    (manage_flow_lifecycle oracle0 (create_flow_fast 7 0 (initState 4 0)).1).pool.get? 0
      = some (new_flow_entry 0 7) ∧
    flow_type_counts [new_flow_entry 0 7]
      = flow_type_counts ([new_flow_entry 0 7].filter (fun f => f.ip != 0)) := by
  obtain ⟨hcf, hstep, hmaint, hstats⟩ := key_zero_flow_live_but_unmaintained
  obtain ⟨h1, h2, _hip, h4⟩ :=
    hcf 7 (initState 4 0) (by decide) (fun e he => absurd he (List.not_mem_nil e))
  obtain ⟨hag, hlc⟩ :=
    hmaint oracle0 (create_flow_fast 7 0 (initState 4 0)).1 0 (new_flow_entry 0 7) h2 rfl
  exact ⟨h1, h4,
    hstep oracle0 (create_flow_fast 7 0 (initState 4 0)).1 0 0 (new_flow_entry 0 7)
      (by decide) rfl,
    hag, hlc, hstats [new_flow_entry 0 7]⟩

/-! ## Claim C9: the priority queue (spec section 4.8)

The priority queue belongs to the repository the spec describes but its
source is not among the files under src/, so the definitions of this
section are built from the spec text alone. -/

/-- Modelled from the spec: ring-buffer slot (key, priority, timestamp);
priority is an integer 0..3 with 0 the most urgent. -/
structure QueueEntry where
  key : ℕ
  priority : ℕ
  timestamp : ℕ

/-- Modelled from the spec: QUEUE_CAPACITY = 64000. -/
def QUEUE_CAPACITY : ℕ := 64000

/-- Modelled from the spec: queue state, the ring content plus the
observable drop_count. -/
structure PriorityQueue where
  entries : List QueueEntry
  drop_count : ℕ

/-- Modelled from the spec: drop probability from the load factor
load = size/capacity as max(0, (load - 0.7)/0.3). -/
def p_drop (size : ℕ) : ℚ :=
  max 0 (((size : ℚ) / (QUEUE_CAPACITY : ℚ) - 7 / 10) / (3 / 10))

/-- Modelled from the spec: the highest priority value present in the
queue (0 when empty). -/
def max_prio : List QueueEntry → ℕ
  | [] => 0
  | a :: t => max a.priority (max_prio t)

/-- Modelled from the spec: position of the first entry holding the
given priority value; the overwrite-on-full targets the first entry
attaining the maximum. -/
def victim_idx : List QueueEntry → ℕ → Option ℕ
  | [], _ => none
  | a :: rest, m =>
    if a.priority = m then some 0 else (victim_idx rest m).map (· + 1)

/-- Modelled from the spec: enqueue(key, priority).  The probabilistic
drop is driven by the draw r (uniform in [0,1)): when the ring is full
the packet is dropped iff r < p_drop, and a surviving packet overwrites
the queued entry with the highest priority value (lowest urgency);
when not full the entry is appended at the tail. -/
def enqueue (e : QueueEntry) (r : ℚ) (q : PriorityQueue) : PriorityQueue :=
  if QUEUE_CAPACITY ≤ q.entries.length then
    if r < p_drop q.entries.length then
      { q with drop_count := q.drop_count + 1 }
    else
      match victim_idx q.entries (max_prio q.entries) with
      | some i => { q with entries := modifyIdx q.entries i (fun _ => e) }
      | none => q
  else { q with entries := q.entries ++ [e] }

/-- Every queued priority is at most max_prio. -/
lemma max_prio_ge (l : List QueueEntry) (b : QueueEntry) (hb : b ∈ l) :
    b.priority ≤ max_prio l := by
  induction l with
  | nil => cases hb
  | cons a t ih =>
    rcases List.mem_cons.mp hb with hba | hbt
    · subst hba; exact le_max_left _ _
    · exact le_trans (ih hbt) (le_max_right _ _)

lemma victim_idx_spec (l : List QueueEntry) (m i : ℕ)
    (h : victim_idx l m = some i) :
    ∃ v, l.get? i = some v ∧ v.priority = m := by
  induction l generalizing i with
  | nil => exact Option.noConfusion h
  | cons a t ih =>
    unfold victim_idx at h
    by_cases ha : a.priority = m
    · rw [if_pos ha] at h
      cases h
      exact ⟨a, rfl, ha⟩
    · rw [if_neg ha] at h
      cases hv : victim_idx t m with
      | none => rw [hv] at h; exact Option.noConfusion h
      | some j =>
        rw [hv] at h
        have hij : i = j + 1 := (Option.some.inj h).symm
        subst hij
        obtain ⟨v, hget, hpri⟩ := ih j hv
        exact ⟨v, hget, hpri⟩

lemma victim_idx_attained (l : List QueueEntry) (m : ℕ) (b : QueueEntry)
    (hb : b ∈ l) (hm : b.priority = m) :
    ∃ i, victim_idx l m = some i := by
  induction l with
  | nil => cases hb
  | cons a t ih =>
    unfold victim_idx
    by_cases ha : a.priority = m
    · exact ⟨0, by rw [if_pos ha]⟩
    · rw [if_neg ha]
      rcases List.mem_cons.mp hb with hba | hbt
      · exact absurd (hba ▸ hm) ha
      · obtain ⟨j, hj⟩ := ih hbt
        exact ⟨j + 1, by rw [hj]; rfl⟩

lemma max_prio_attained (l : List QueueEntry) (hne : l ≠ []) :
    ∃ b ∈ l, b.priority = max_prio l := by
  induction l with
  | nil => exact absurd rfl hne
  | cons a t ih =>
    by_cases hle : max_prio t ≤ a.priority
    · exact ⟨a, List.mem_cons_self a t,
        (max_eq_left hle).symm⟩
    · have hta : t ≠ [] := by
        intro h0
        rw [h0] at hle
        exact hle (Nat.zero_le _)
      obtain ⟨b, hbmem, hbeq⟩ := ih hta
      refine ⟨b, List.mem_cons_of_mem a hbmem, ?_⟩
      rw [hbeq]
      exact (max_eq_right (le_of_not_le hle)).symm

/-- C9: the queue is a bounded buffer of capacity QUEUE_CAPACITY = 64000;
enqueue appends at the tail while the ring is not full; on a full ring it
drops the incoming packet exactly when the uniform draw falls below
p_drop = max(0, (load - 0.7)/0.3), and a surviving packet overwrites a
queued entry attaining the highest (least urgent) priority value. -/
theorem priority_queue_enqueue_policy :
    QUEUE_CAPACITY = 64000 ∧
    (∀ n : ℕ, p_drop n
        = max 0 (((n : ℚ) / (QUEUE_CAPACITY : ℚ) - 7 / 10) / (3 / 10))) ∧
    (∀ (e : QueueEntry) (r : ℚ) (q : PriorityQueue),
        q.entries.length < QUEUE_CAPACITY →
        enqueue e r q = { q with entries := q.entries ++ [e] }) ∧
    (∀ (e : QueueEntry) (r : ℚ) (q : PriorityQueue),
        QUEUE_CAPACITY ≤ q.entries.length →
        r < p_drop q.entries.length →
        enqueue e r q = { q with drop_count := q.drop_count + 1 }) ∧
    (∀ (e : QueueEntry) (r : ℚ) (q : PriorityQueue),
        QUEUE_CAPACITY ≤ q.entries.length →
        ¬ r < p_drop q.entries.length →
        ∃ i v, q.entries.get? i = some v ∧
          (∀ b ∈ q.entries, b.priority ≤ v.priority) ∧
          enqueue e r q
            = { q with entries := modifyIdx q.entries i (fun _ => e) }) := by
  refine ⟨rfl, fun n => rfl, ?_, ?_, ?_⟩
  · intro e r q h
    unfold enqueue
    rw [if_neg (not_le.mpr h)]
  · intro e r q h1 h2
    unfold enqueue
    rw [if_pos h1, if_pos h2]
  · intro e r q h1 h2
    have hne : q.entries ≠ [] := by
      intro h0
      rw [h0] at h1
      simp [QUEUE_CAPACITY] at h1
    obtain ⟨b, hbmem, hbeq⟩ := max_prio_attained q.entries hne
    obtain ⟨i, hi⟩ := victim_idx_attained q.entries _ b hbmem hbeq
    obtain ⟨v, hv, hvp⟩ := victim_idx_spec q.entries _ i hi
    refine ⟨i, v, hv, fun c hc => hvp ▸ max_prio_ge q.entries c hc, ?_⟩
    unfold enqueue
    rw [if_pos h1, if_neg h2, hi]

/-- Witness for C9 at concrete inputs: appending to an empty queue,
dropping into a full ring of 64000 priority-2 entries under draw 0
(p_drop is 1 at full load), and overwriting under draw 2. -/
theorem priority_queue_enqueue_policy_witness :
    enqueue ⟨5, 0, 3⟩ 0 ⟨[], 0⟩ = ⟨[⟨5, 0, 3⟩], 0⟩ ∧
    enqueue ⟨5, 0, 3⟩ 0 ⟨List.replicate QUEUE_CAPACITY ⟨1, 2, 0⟩, 0⟩
      = ⟨List.replicate QUEUE_CAPACITY ⟨1, 2, 0⟩, 1⟩ ∧
    (∃ i v,
      (List.replicate QUEUE_CAPACITY (⟨1, 2, 0⟩ : QueueEntry)).get? i = some v ∧
      (∀ b ∈ List.replicate QUEUE_CAPACITY (⟨1, 2, 0⟩ : QueueEntry),
          b.priority ≤ v.priority) ∧
      enqueue ⟨5, 0, 3⟩ 2 ⟨List.replicate QUEUE_CAPACITY ⟨1, 2, 0⟩, 0⟩
        = ⟨modifyIdx (List.replicate QUEUE_CAPACITY ⟨1, 2, 0⟩) i
            (fun _ => ⟨5, 0, 3⟩), 0⟩) := by
  obtain ⟨_, _, happ, hdrop, hover⟩ := priority_queue_enqueue_policy
  have hlen : (List.replicate QUEUE_CAPACITY (⟨1, 2, 0⟩ : QueueEntry)).length
      = QUEUE_CAPACITY := List.length_replicate _ _
  refine ⟨happ ⟨5, 0, 3⟩ 0 ⟨[], 0⟩ (by decide), ?_, ?_⟩
  · refine hdrop ⟨5, 0, 3⟩ 0 ⟨List.replicate QUEUE_CAPACITY ⟨1, 2, 0⟩, 0⟩ ?_ ?_
    · exact le_of_eq hlen.symm
    · show (0 : ℚ) < p_drop (List.replicate QUEUE_CAPACITY (⟨1, 2, 0⟩ : QueueEntry)).length
      rw [hlen]
      norm_num [p_drop, QUEUE_CAPACITY]
  · refine hover ⟨5, 0, 3⟩ 2 ⟨List.replicate QUEUE_CAPACITY ⟨1, 2, 0⟩, 0⟩ ?_ ?_
    · exact le_of_eq hlen.symm
    · show ¬ (2 : ℚ) < p_drop (List.replicate QUEUE_CAPACITY (⟨1, 2, 0⟩ : QueueEntry)).length
      rw [hlen]
      norm_num [p_drop, QUEUE_CAPACITY]

end DynaFlow
